import Mathlib

/-!
Conversion of `conv2d_transpose` to an NPU subgraph

A shallow embedding of `ConvTransposeConverter`
(`lite/kernels/npu/bridges/conv_transpose_op.cc`) together with the properties
of its padding normalisation, its output-size arithmetic, the nodes it emits
and the checks it performs.

Conventions of the embedding.

* A `CHECK` that fails aborts the conversion; the converter therefore returns
  an `Outcome` that carries the registry as it stands at that moment together
  with either the failed check or the returned status code.
* Entries of a `DDim` are 64-bit and attribute values are 32-bit `int`s. Both
  are mathematical integers here; every place where the source stores a 64-bit
  expression into an `int` / `int32_t` is an explicit `toInt32`, and the two
  64-bit values compared by the bias check (the element count and
  `filter_dims[1] * groups`) are explicit `toInt64`s. Since `toInt32` and
  `toInt64` are ring homomorphisms onto the residues modulo `2^32` and `2^64`,
  wrapping the 64-bit intermediate results as well would not change any value
  stored or compared.
* A node reference (`std::shared_ptr<Node>`) is the position of the node in
  the list of all nodes created so far.
-/

namespace ConvTranspose

/-! Data model -/

/-- Modelled from the spec: the element-type tag of a declared kernel argument
(the enumeration itself is declared outside the sources); the converter only
compares it with `kFloat`. -/
inductive PrecisionType where
  | kUnk
  | kFloat
  | kInt8
  | kInt32
  | kAny
  deriving DecidableEq, Repr

/-- Modelled from the spec: the memory-layout tag of a declared kernel argument
(the enumeration itself is declared outside the sources); the converter only
compares it with `kNCHW`. -/
inductive DataLayoutType where
  | kUnk
  | kNCHW
  | kAny
  | kNHWC
  deriving DecidableEq, Repr

/-- The declared type of a kernel argument: `precision()` and `layout()`. -/
structure DeclType where
  precision : PrecisionType
  layout : DataLayoutType
  deriving DecidableEq, Repr

/-- A tensor as far as the converter reads it: its shape `dims()`. The buffer
of floats is not read by the converter and is not modelled. -/
structure Tensor where
  dims : List Int
  deriving DecidableEq, Repr

/-- Modelled from the spec: the element count of a shape (`DDim::production`,
declared outside the sources) is the product of its dimensions. -/
def production (dims : List Int) : Int :=
  dims.foldl (fun res d => res * d) 1

/-- The kernel: declared types of the named inputs and outputs. -/
structure KernelBase where
  GetInputDeclType : String → DeclType
  GetOutputDeclType : String → DeclType

/-- The operator together with its scope. `input_name`, `filter_name` and
`output_name` are `Input("Input").front()`, `Input("Filter").front()` and
`Output("Output").front()`; `bias_name` is `some b` exactly when
`HasInputArg(op_info, scope, "Bias")` holds, with `b = Input("Bias").front()`;
`fuse_relu` is `none` when `HasAttr("fuse_relu")` is false and otherwise the
value of the attribute; `scope` is `FindMutableTensor`, `none` standing for a
null pointer. -/
structure OpLite where
  input_name : String
  filter_name : String
  output_name : String
  bias_name : Option String
  strides : List Int
  paddings : List Int
  groups : Int
  dilations : List Int
  fuse_relu : Option Bool
  scope : String → Option Tensor

/-- Attributes and operands of a `ge::op::Deconvolution` node. The operands
are node references. -/
structure Deconvolution where
  input_sizes : Nat
  filter : Nat
  x : Nat
  format : Int
  pad_mode : Int
  group : Int
  pad : List Int
  dilation : List Int
  stride : List Int
  kernel : List Int
  deriving DecidableEq, Repr

/-- What a graph node wraps. `tensor t shape` is a constant or data node built
from the tensor `t` with the given shape (the shape of `t` unless overridden),
`constInt` a constant vector of `int32_t`. The mode of an activation is kept as
the name handed to `CvtActMode` (declared outside the sources). -/
inductive NodeData where
  | tensor (t : Tensor) (shape : List Int)
  | constInt (values : List Int)
  | Deconvolution (op : Deconvolution)
  | Add (x1 x2 : Nat)
  | Activation (x : Nat) (mode : String)
  deriving DecidableEq, Repr

/-- A graph node: the name it was added under and the operator it wraps. -/
structure Node where
  name : String
  data : NodeData
  deriving DecidableEq, Repr

/-- Modelled from the spec: the node registry (class `Graph`, declared in
`graph.h`, which is not among the sources). `nodes` lists every node ever
created, oldest first, so that a node reference is a position in it; `table`
maps a name to the node currently registered under it. -/
structure Graph where
  nodes : List Node
  table : List (String × Nat)
  deriving DecidableEq, Repr

/-- Modelled from the spec: `Get(name)` of the registry of `graph.h`, the node
registered under `name`, if any. -/
def Graph.Get (g : Graph) (name : String) : Option Nat :=
  g.table.lookup name

/-- Modelled from the spec: `Has(name)` of the registry of `graph.h`. -/
def Graph.Has (g : Graph) (name : String) : Bool :=
  (g.Get name).isSome

/-- Modelled from the spec: `Add(name, ...)` of the registry of `graph.h`. A
new node is created and the registry entry for `name` is replaced by it;
holders of a reference to the node previously registered still see the old
node. -/
def Graph.Add (g : Graph) (name : String) (data : NodeData) : Graph × Nat :=
  ({ nodes := g.nodes ++ [{ name := name, data := data }],
     table := (name, g.nodes.length) :: g.table.filter (fun e => e.1 != name) },
   g.nodes.length)

/-- The check that aborted a conversion. -/
inductive CheckFailure where
  | input_precision
  | input_layout
  | input_tensor
  | input_dims_size
  | filter_precision
  | filter_layout
  | filter_tensor
  | filter_dims_size
  | output_precision
  | output_layout
  | strides_size
  | dilations_size
  | paddings_size
  | bias_precision
  | bias_layout
  | bias_tensor
  | bias_channel_size
  deriving DecidableEq, Repr

/-- Modelled from the spec: the status codes a bridge hands back to its caller
(declared in `registry.h`, which is not among the sources). The converter
returns `REBUILD_WHEN_SHAPE_CHANGED` only. -/
inductive Status where
  | SUCCESS
  | FAILED
  | REBUILD_WHEN_SHAPE_CHANGED
  deriving DecidableEq, Repr

/-- The result of a call: the registry after the call and either the check
that failed or the returned status. -/
structure Outcome where
  graph : Graph
  status : Except CheckFailure Status

/-! Integer helpers -/

/-- Storing an integer into an `int` / `int32_t`: reduction modulo `2^32` into
the signed range. -/
def toInt32 (x : Int) : Int :=
  (x + 2147483648) % 4294967296 - 2147483648

/-- A value held in an `int64_t`: reduction modulo `2^64` into the signed
range. -/
def toInt64 (x : Int) : Int :=
  (x + 9223372036854775808) % 18446744073709551616 - 9223372036854775808

/-- The value is representable as an `int64_t`. -/
def fitsInt64 (x : Int) : Prop :=
  -9223372036854775808 ≤ x ∧ x < 9223372036854775808

instance (x : Int) : Decidable (fitsInt64 x) := by
  unfold fitsInt64; infer_instance

/-- The value is representable as an `int32_t`. -/
def fitsInt32 (x : Int) : Prop :=
  -2147483648 ≤ x ∧ x < 2147483648

instance (x : Int) : Decidable (fitsInt32 x) := by
  unfold fitsInt32; infer_instance

/-- Element access `v[i]` of a vector or `DDim`; every use in the converter
comes after the size check that puts `i` in bounds. -/
def idx (v : List Int) (i : Nat) : Int :=
  v.getD i 0

/-- The call `v.insert(v.begin() + pos, x)` on a `std::vector<int>`. -/
def vecInsert (v : List Int) (pos : Nat) (x : Int) : List Int :=
  v.take pos ++ x :: v.drop pos

/-! The converter -/

/-- Lines 34-59: declared types, ranks and attribute sizes. Returns the input
and the filter tensor. -/
def checkedInputs (op : OpLite) (kernel : KernelBase) :
    Except CheckFailure (Tensor × Tensor) :=
  if (kernel.GetInputDeclType "Input").precision ≠ PrecisionType.kFloat then
    .error .input_precision
  else if (kernel.GetInputDeclType "Input").layout ≠ DataLayoutType.kNCHW then
    .error .input_layout
  else
    match op.scope op.input_name with
    | none => .error .input_tensor
    | some input =>
      if input.dims.length ≠ 4 then .error .input_dims_size
      else if (kernel.GetInputDeclType "Filter").precision ≠ PrecisionType.kFloat then
        .error .filter_precision
      else if (kernel.GetInputDeclType "Filter").layout ≠ DataLayoutType.kNCHW then
        .error .filter_layout
      else
        match op.scope op.filter_name with
        | none => .error .filter_tensor
        | some filter =>
          if filter.dims.length ≠ 4 then .error .filter_dims_size
          else if (kernel.GetOutputDeclType "Output").precision ≠ PrecisionType.kFloat then
            .error .output_precision
          else if (kernel.GetOutputDeclType "Output").layout ≠ DataLayoutType.kNCHW then
            .error .output_layout
          else if op.strides.length ≠ 2 then .error .strides_size
          else if op.dilations.length ≠ 2 then .error .dilations_size
          else .ok (input, filter)

/-- Lines 61-67: the input node, looked up in the registry and created only
when the name is not registered. -/
def inputNode (graph : Graph) (input_name : String) (input : Tensor) : Graph × Nat :=
  match graph.Get input_name with
  | some node => (graph, node)
  | none => graph.Add input_name (.tensor input input.dims)

/-- Lines 70-75: a 2-element `paddings` gets, for `i = 0, 1`, a copy of the
element at `2 * i` inserted at `2 * i + 1`; any other vector is left alone. -/
def expandPaddings (paddings : List Int) : List Int :=
  if paddings.length = 2 then
    (List.range 2).foldl (fun p i => vecInsert p (2 * i + 1) (idx p (2 * i))) paddings
  else paddings

/-- Lines 70-77: the expansion followed by `CHECK_EQ(paddings.size(), 4L)`. -/
def normalizePaddings (paddings : List Int) : Option (List Int) :=
  if (expandPaddings paddings).length = 4 then some (expandPaddings paddings) else none

/-- Lines 82-84: the body of the output-size loop for axis `i`. -/
def output_size (input_dims filter_dims strides dilations paddings : List Int) (i : Nat) : Int :=
  let kernel_ext := toInt32 (idx dilations i * (idx filter_dims (i + 2) - 1) + 1)
  toInt32 ((idx input_dims (i + 2) - 1) * idx strides i + kernel_ext - 2 * idx paddings i)

/-- Lines 78-86: the vector `input_sizes`. -/
def input_sizes (input_dims filter_dims strides dilations paddings : List Int) (groups : Int) :
    List Int :=
  (List.range strides.length).foldl
    (fun sizes i => sizes ++ [output_size input_dims filter_dims strides dilations paddings i])
    [toInt32 (idx input_dims 0), toInt32 (idx filter_dims 1 * groups)]

/-- Lines 113-125: the bias node, looked up in the registry; only when the name
is not registered are the declared type and the channel count checked and the
node created with shape `{1, channel_size, 1, 1}`. Both `channel_size` and
`filter_dims[1] * groups` are `int64_t` values. -/
def biasNode (graph : Graph) (op : OpLite) (kernel : KernelBase) (filter_dims : List Int)
    (bias_name : String) : Except CheckFailure (Graph × Nat) :=
  match graph.Get bias_name with
  | some node => .ok (graph, node)
  | none =>
    if (kernel.GetInputDeclType "Bias").precision ≠ PrecisionType.kFloat then
      .error .bias_precision
    else if (kernel.GetInputDeclType "Bias").layout ≠ DataLayoutType.kNCHW then
      .error .bias_layout
    else
      match op.scope bias_name with
      | none => .error .bias_tensor
      | some bias =>
        let channel_size := toInt64 (production bias.dims)
        if channel_size ≠ toInt64 (idx filter_dims 1 * op.groups) then
          .error .bias_channel_size
        else .ok (graph.Add bias_name (.tensor bias [1, channel_size, 1, 1]))

/-- Lines 134-141: the optional activation node and the return value. -/
def reluStage (graph : Graph) (op : OpLite) (conv_transpose_node : Nat) : Outcome :=
  if op.fuse_relu = some true then
    { graph := (graph.Add op.output_name (.Activation conv_transpose_node "relu")).1,
      status := .ok .REBUILD_WHEN_SHAPE_CHANGED }
  else
    { graph := graph, status := .ok .REBUILD_WHEN_SHAPE_CHANGED }

/-- Lines 111-141: the optional add node, then the activation stage. -/
def biasStage (graph : Graph) (op : OpLite) (kernel : KernelBase) (filter_dims : List Int)
    (conv_transpose_node : Nat) : Outcome :=
  match op.bias_name with
  | none => reluStage graph op conv_transpose_node
  | some bias_name =>
    match biasNode graph op kernel filter_dims bias_name with
    | .error e => { graph := graph, status := .error e }
    | .ok (graph1, bias_node) =>
      let add := graph1.Add op.output_name (.Add conv_transpose_node bias_node)
      reluStage add.1 op add.2

/-- Lines 94-109: the operands and the attributes set on the deconvolution
operator. -/
def deconvolution (op : OpLite) (filter_dims paddings : List Int)
    (input_sizes_node filter_node input_node : Nat) : Deconvolution :=
  { input_sizes := input_sizes_node
    filter := filter_node
    x := input_node
    format := 0
    pad_mode := 0
    group := op.groups
    pad := [idx paddings 0, idx paddings 1, idx paddings 2, idx paddings 3]
    dilation := [idx op.dilations 0, idx op.dilations 1]
    stride := [idx op.strides 0, idx op.strides 1]
    kernel := [idx filter_dims 2, idx filter_dims 3] }

/-- Lines 78-109: the output-size descriptor, the filter node and the
deconvolution node. -/
def deconvStage (graph : Graph) (op : OpLite) (input filter : Tensor) (input_node : Nat)
    (paddings : List Int) : Graph × Nat :=
  let sizes := graph.Add (op.output_name ++ "/input_sizes")
    (.constInt (input_sizes input.dims filter.dims op.strides op.dilations paddings op.groups))
  let flt := sizes.1.Add op.filter_name (.tensor filter filter.dims)
  flt.1.Add op.output_name
    (.Deconvolution (deconvolution op filter.dims paddings sizes.2 flt.2 input_node))

/-- The function `ConvTransposeConverter`. -/
def ConvTransposeConverter (graph : Graph) (op : OpLite) (kernel : KernelBase) : Outcome :=
  match checkedInputs op kernel with
  | .error e => { graph := graph, status := .error e }
  | .ok (input, filter) =>
    let inp := inputNode graph op.input_name input
    match normalizePaddings op.paddings with
    | none => { graph := inp.1, status := .error .paddings_size }
    | some paddings =>
      let deconv := deconvStage inp.1 op input filter inp.2 paddings
      biasStage deconv.1 op kernel filter.dims deconv.2

/-! Observations on an outcome -/

/-- The conversion ran to its `return` statement. -/
def Outcome.succeeded (o : Outcome) : Bool :=
  match o.status with
  | .ok _ => true
  | .error _ => false

/-- The conversion was aborted by a failed check. -/
def Outcome.failed (o : Outcome) : Bool :=
  !o.succeeded

/-- The nodes that exist in `after` and did not exist in `before`, oldest
first. -/
def created (before after : Graph) : List Node :=
  after.nodes.drop before.nodes.length

/-- The output size of a forward convolution on an axis of size `m` with stride
`s`, kernel `k`, dilation 1 and padding `p` on both sides, as the round-trip
property of the specification words it: `floor((m + 2p - k) / s) + 1`. -/
def forwardConvOutputSize (m s k p : Int) : Int :=
  (m + 2 * p - k) / s + 1

/-! Sample operators -/

/-- A kernel declaring every argument as float, channel-first. -/
def floatKernel : KernelBase where
  GetInputDeclType := fun _ => { precision := .kFloat, layout := .kNCHW }
  GetOutputDeclType := fun _ => { precision := .kFloat, layout := .kNCHW }

/-- An empty registry. -/
def emptyGraph : Graph := { nodes := [], table := [] }

/-- Input `[1,4,8,8]`, filter `[4,8,3,3]`, a bias `[8]` and a tensor `[3]`
whose element count is not the number of output channels, stored under the
names `x`, `w`, `b` and `c`. -/
def sampleScope (name : String) : Option Tensor :=
  if name = "x" then some { dims := [1, 4, 8, 8] }
  else if name = "w" then some { dims := [4, 8, 3, 3] }
  else if name = "b" then some { dims := [8] }
  else if name = "c" then some { dims := [3] }
  else none

/-- The operator of the end-to-end example: stride `[2,2]`, dilation `[1,1]`,
padding `[1,1]`, one group, no bias, no fused activation. -/
def sampleOp : OpLite where
  input_name := "x"
  filter_name := "w"
  output_name := "y"
  bias_name := none
  strides := [2, 2]
  paddings := [1, 1]
  groups := 1
  dilations := [1, 1]
  fuse_relu := none
  scope := sampleScope

/-- The conditions checked by lines 34-59, for the tensors `input` and `filter`
found in the scope. -/
def inputsValid (op : OpLite) (kernel : KernelBase) (input filter : Tensor) : Prop :=
  (kernel.GetInputDeclType "Input").precision = PrecisionType.kFloat ∧
  (kernel.GetInputDeclType "Input").layout = DataLayoutType.kNCHW ∧
  op.scope op.input_name = some input ∧ input.dims.length = 4 ∧
  (kernel.GetInputDeclType "Filter").precision = PrecisionType.kFloat ∧
  (kernel.GetInputDeclType "Filter").layout = DataLayoutType.kNCHW ∧
  op.scope op.filter_name = some filter ∧ filter.dims.length = 4 ∧
  (kernel.GetOutputDeclType "Output").precision = PrecisionType.kFloat ∧
  (kernel.GetOutputDeclType "Output").layout = DataLayoutType.kNCHW ∧
  op.strides.length = 2 ∧ op.dilations.length = 2

/-- The node wraps a constant integer vector. -/
def NodeData.isConstInt : NodeData → Bool
  | .constInt _ => true
  | _ => false

/-- The node wraps a deconvolution operator. -/
def NodeData.isDeconvolution : NodeData → Bool
  | .Deconvolution _ => true
  | _ => false

/-- The node wraps an add operator. -/
def NodeData.isAdd : NodeData → Bool
  | .Add _ _ => true
  | _ => false

/-- The node wraps a tensor (a constant or data node). -/
def NodeData.isTensor : NodeData → Bool
  | .tensor _ _ => true
  | _ => false

/-- The node wraps an activation operator. -/
def NodeData.isActivation : NodeData → Bool
  | .Activation _ _ => true
  | _ => false

/-- The node wraps one of the operators of the chain: deconvolution, add or
activation. -/
def NodeData.isChain (d : NodeData) : Bool :=
  d.isDeconvolution || d.isAdd || d.isActivation

/-- A registry in which a node named `c` is already registered. -/
def biasGraph : Graph :=
  { nodes := [{ name := "c", data := .tensor { dims := [3] } [1, 3, 1, 1] }],
    table := [("c", 0)] }

/-- The sample operator with the 8-element bias `b` declared and `fuse_relu`
set. -/
def fusedOp : OpLite :=
  { sampleOp with bias_name := some "b", fuse_relu := some true }

/-- The sample operator with the pre-expanded padding `[1, 0, 1, 0]`. -/
def paddedOp : OpLite :=
  { sampleOp with paddings := [1, 0, 1, 0] }

/-- The sample operator with an input tensor of rank 3. -/
def rank3Op : OpLite :=
  { sampleOp with
    scope := fun name => if name = "x" then some { dims := [4, 8, 8] } else sampleScope name }

/-- A kernel that declares the filter as 8-bit integers. -/
def int8FilterKernel : KernelBase where
  GetInputDeclType := fun name =>
    if name = "Filter" then { precision := .kInt8, layout := .kNCHW }
    else { precision := .kFloat, layout := .kNCHW }
  GetOutputDeclType := fun _ => { precision := .kFloat, layout := .kNCHW }

/-- The sample operator with a `paddings` attribute of 3 elements. -/
def badPaddingOp : OpLite :=
  { sampleOp with paddings := [1, 2, 3] }

/-- The sample operator with the 3-element tensor `c` declared as bias; the
operator has 8 output channels. -/
def mismatchOp : OpLite :=
  { sampleOp with bias_name := some "c" }

/-- A 1x1 input, a 1x1 kernel, stride `[1,1]`, dilation `[1,1]` and padding
`[1,1]`, stored under the names `x` and `w`. -/
def tinyOp : OpLite where
  input_name := "x"
  filter_name := "w"
  output_name := "y"
  bias_name := none
  strides := [1, 1]
  paddings := [1, 1]
  groups := 1
  dilations := [1, 1]
  fuse_relu := none
  scope := fun name =>
    if name = "x" then some { dims := [1, 1, 1, 1] }
    else if name = "w" then some { dims := [1, 1, 1, 1] }
    else none

/-- The sample operator with the 2-element padding `[1, 2]`. -/
def pairPaddingOp : OpLite :=
  { sampleOp with paddings := [1, 2] }

/-- A scope whose filter has `2^62` in position 1 and whose bias `b` has no
elements. -/
def wrapScope (name : String) : Option Tensor :=
  if name = "x" then some { dims := [1, 4, 8, 8] }
  else if name = "w" then some { dims := [4, 4611686018427387904, 3, 3] }
  else if name = "b" then some { dims := [0] }
  else none

/-- The sample operator on `wrapScope` with 4 groups and the bias `b`:
`filter_dims[1] * groups` is `2^64`, which is 0 as an `int64_t`. -/
def wrapOp : OpLite :=
  { sampleOp with groups := 4, bias_name := some "b", scope := wrapScope }

/-! Integer and padding lemmas -/

theorem toInt32_of_fits {x : Int} (h : fitsInt32 x) : toInt32 x = x := by
  unfold fitsInt32 at h
  unfold toInt32
  omega

theorem toInt64_of_fits {x : Int} (h : fitsInt64 x) : toInt64 x = x := by
  unfold fitsInt64 at h
  unfold toInt64
  omega

theorem toInt32_absorb (a b c : Int) : toInt32 (a + toInt32 b - c) = toInt32 (a + b - c) := by
  unfold toInt32
  omega

theorem expandPaddings_of_length_ne {p : List Int} (h : p.length ≠ 2) : expandPaddings p = p := by
  simp [expandPaddings, h]

theorem normalizePaddings_pair (p0 p1 : Int) :
    normalizePaddings [p0, p1] = some [p0, p0, p1, p1] := by
  rfl

theorem normalizePaddings_quad {p : List Int} (h : p.length = 4) : normalizePaddings p = some p := by
  have h2 : p.length ≠ 2 := by omega
  simp [normalizePaddings, expandPaddings_of_length_ne h2, h]

theorem normalizePaddings_other {p : List Int} (h2 : p.length ≠ 2) (h4 : p.length ≠ 4) :
    normalizePaddings p = none := by
  simp [normalizePaddings, expandPaddings_of_length_ne h2, h4]

theorem normalizePaddings_length {p q : List Int} (h : normalizePaddings p = some q) :
    q.length = 4 := by
  unfold normalizePaddings at h
  split at h
  · cases h; assumption
  · cases h

theorem converter_failed_of_paddings (graph : Graph) (op : OpLite) (kernel : KernelBase)
    (h : normalizePaddings op.paddings = none) :
    (ConvTransposeConverter graph op kernel).failed = true := by
  unfold ConvTransposeConverter
  cases hc : checkedInputs op kernel with
  | error e => simp [Outcome.failed, Outcome.succeeded]
  | ok r =>
    obtain ⟨input, filter⟩ := r
    simp [h, Outcome.failed, Outcome.succeeded]

/-! Validation and registry lemmas -/

theorem checkedInputs_ok_iff (op : OpLite) (kernel : KernelBase) (input filter : Tensor) :
    checkedInputs op kernel = .ok (input, filter) ↔ inputsValid op kernel input filter := by
  unfold checkedInputs inputsValid
  generalize kernel.GetInputDeclType "Input" = ti
  generalize kernel.GetInputDeclType "Filter" = tf
  generalize kernel.GetOutputDeclType "Output" = tout
  generalize op.scope op.input_name = si
  generalize op.scope op.filter_name = sf
  constructor
  · intro h
    by_cases h1 : ti.precision = PrecisionType.kFloat
    swap
    · simp [h1] at h
    by_cases h2 : ti.layout = DataLayoutType.kNCHW
    swap
    · simp [h1, h2] at h
    simp only [h1, h2, ne_eq, not_true_eq_false, if_false] at h
    cases si with
    | none => simp at h
    | some i =>
      simp only at h
      by_cases h3 : i.dims.length = 4
      swap
      · simp [h3] at h
      by_cases h4 : tf.precision = PrecisionType.kFloat
      swap
      · simp [h3, h4] at h
      by_cases h5 : tf.layout = DataLayoutType.kNCHW
      swap
      · simp [h3, h4, h5] at h
      simp only [h3, h4, h5, ne_eq, not_true_eq_false, if_false] at h
      cases sf with
      | none => simp at h
      | some f =>
        simp only at h
        by_cases h6 : f.dims.length = 4
        swap
        · simp [h6] at h
        by_cases h7 : tout.precision = PrecisionType.kFloat
        swap
        · simp [h6, h7] at h
        by_cases h8 : tout.layout = DataLayoutType.kNCHW
        swap
        · simp [h6, h7, h8] at h
        by_cases h9 : op.strides.length = 2
        swap
        · simp [h6, h7, h8, h9] at h
        by_cases h10 : op.dilations.length = 2
        swap
        · simp [h6, h7, h8, h9, h10] at h
        simp only [h6, h7, h8, h9, h10, ne_eq, not_true_eq_false, if_false] at h
        injection h with h
        injection h with ha hb
        subst ha
        subst hb
        exact ⟨h1, h2, rfl, h3, h4, h5, rfl, h6, h7, h8, h9, h10⟩
  · rintro ⟨h1, h2, h3, h4, h5, h6, h7, h8, h9, h10, h11, h12⟩
    simp [h1, h2, h3, h4, h5, h6, h7, h8, h9, h10, h11, h12]

theorem lookup_filter_ne (l : List (String × Nat)) {m n : String} (h : m ≠ n) :
    (l.filter (fun e => e.1 != n)).lookup m = l.lookup m := by
  induction l with
  | nil => rfl
  | cons e l ih =>
    obtain ⟨a, b⟩ := e
    by_cases han : a = n
    · subst han
      have hma : (m == a) = false := by simpa using h
      simp [List.filter, List.lookup, hma, ih]
    · have : (a != n) = true := by simpa using han
      simp only [List.filter, this, List.lookup, ih]

@[simp]
theorem Add_nodes (g : Graph) (n : String) (d : NodeData) :
    (g.Add n d).1.nodes = g.nodes ++ [{ name := n, data := d }] := rfl

@[simp]
theorem Add_snd (g : Graph) (n : String) (d : NodeData) :
    (g.Add n d).2 = g.nodes.length := rfl

theorem Get_Add (g : Graph) (n m : String) (d : NodeData) :
    (g.Add n d).1.Get m = if m = n then some g.nodes.length else g.Get m := by
  by_cases h : m = n
  · subst h
    simp [Graph.Add, Graph.Get, List.lookup]
  · have hb : (m == n) = false := by simpa using h
    simp [Graph.Add, Graph.Get, List.lookup, hb, h, lookup_filter_ne g.table h]

theorem inputNode_nodes (g : Graph) (n : String) (t : Tensor) :
    (inputNode g n t).1.nodes =
      g.nodes ++ (match g.Get n with
        | some _ => []
        | none => [{ name := n, data := .tensor t t.dims }]) := by
  unfold inputNode
  cases g.Get n <;> simp

theorem inputNode_Get (g : Graph) (n m : String) (t : Tensor) :
    (inputNode g n t).1.Get m = if m = n then some (inputNode g n t).2 else g.Get m := by
  unfold inputNode
  cases h : g.Get n with
  | none => simp [Get_Add]
  | some x =>
    by_cases hm : m = n
    · subst hm; simp [h]
    · simp [hm]

theorem deconvStage_nodes (g : Graph) (op : OpLite) (input filter : Tensor) (x : Nat)
    (paddings : List Int) :
    (deconvStage g op input filter x paddings).1.nodes = g.nodes ++
      [{ name := op.output_name ++ "/input_sizes",
         data := .constInt
          (input_sizes input.dims filter.dims op.strides op.dilations paddings op.groups) },
       { name := op.filter_name, data := .tensor filter filter.dims },
       { name := op.output_name,
         data := .Deconvolution (deconvolution op filter.dims paddings g.nodes.length
          (g.nodes.length + 1) x) }] := by
  simp [deconvStage]

theorem deconvStage_snd (g : Graph) (op : OpLite) (input filter : Tensor) (x : Nat)
    (paddings : List Int) :
    (deconvStage g op input filter x paddings).2 = g.nodes.length + 2 := by
  simp [deconvStage]

theorem deconvStage_Get (g : Graph) (op : OpLite) (input filter : Tensor) (x : Nat)
    (paddings : List Int) (m : String) :
    (deconvStage g op input filter x paddings).1.Get m =
      if m = op.output_name then some (g.nodes.length + 2)
      else if m = op.filter_name then some (g.nodes.length + 1)
      else if m = op.output_name ++ "/input_sizes" then some g.nodes.length
      else g.Get m := by
  simp [deconvStage, Get_Add]

/-! Stage lemmas -/

theorem reluStage_status (g : Graph) (op : OpLite) (c : Nat) :
    (reluStage g op c).status = .ok .REBUILD_WHEN_SHAPE_CHANGED := by
  unfold reluStage
  split <;> rfl

theorem reluStage_nodes (g : Graph) (op : OpLite) (c : Nat) :
    (reluStage g op c).graph.nodes = g.nodes ++
      (if op.fuse_relu = some true then
        [{ name := op.output_name, data := .Activation c "relu" }] else []) := by
  unfold reluStage
  split <;> simp

theorem reluStage_Get (g : Graph) (op : OpLite) (c : Nat) (m : String) :
    (reluStage g op c).graph.Get m =
      if op.fuse_relu = some true ∧ m = op.output_name then some g.nodes.length
      else g.Get m := by
  unfold reluStage
  by_cases h : op.fuse_relu = some true
  · simp [h, Get_Add]
  · simp [h]

theorem biasNode_ok {g g1 : Graph} {op : OpLite} {kernel : KernelBase} {filter_dims : List Int}
    {b : String} {n : Nat} (h : biasNode g op kernel filter_dims b = .ok (g1, n)) :
    (g.Get b = some n ∧ g1 = g) ∨
    (g.Get b = none ∧ n = g.nodes.length ∧
      (kernel.GetInputDeclType "Bias").precision = PrecisionType.kFloat ∧
      (kernel.GetInputDeclType "Bias").layout = DataLayoutType.kNCHW ∧
      ∃ bias, op.scope b = some bias ∧
        toInt64 (production bias.dims) = toInt64 (idx filter_dims 1 * op.groups) ∧
        g1 = (g.Add b (.tensor bias [1, toInt64 (production bias.dims), 1, 1])).1) := by
  unfold biasNode at h
  generalize kernel.GetInputDeclType "Bias" = tb at h ⊢
  cases hg : g.Get b with
  | some x =>
    simp only [hg] at h
    injection h with h
    injection h with h1 h2
    left
    exact ⟨by rw [h2], h1.symm⟩
  | none =>
    simp only [hg] at h
    right
    by_cases h1 : tb.precision = PrecisionType.kFloat
    swap
    · simp [h1] at h
    by_cases h2 : tb.layout = DataLayoutType.kNCHW
    swap
    · simp [h1, h2] at h
    simp only [h1, h2, ne_eq, not_true_eq_false, if_false] at h
    cases hs : op.scope b with
    | none => simp [hs] at h
    | some bias =>
      simp only [hs] at h
      by_cases h3 : toInt64 (production bias.dims) = toInt64 (idx filter_dims 1 * op.groups)
      swap
      · simp [h3] at h
      simp only [h3, ne_eq, not_true_eq_false, if_false] at h
      injection h with h
      injection h with ha hb
      refine ⟨rfl, ?_, h1, h2, bias, rfl, h3, ?_⟩
      · exact hb.symm
      · rw [← ha, h3]; rfl

theorem converter_run {graph : Graph} {op : OpLite} {kernel : KernelBase}
    (hs : (ConvTransposeConverter graph op kernel).succeeded = true) :
    ∃ input filter paddings, inputsValid op kernel input filter ∧
      normalizePaddings op.paddings = some paddings ∧
      ConvTransposeConverter graph op kernel =
        biasStage
          (deconvStage (inputNode graph op.input_name input).1 op input filter
            (inputNode graph op.input_name input).2 paddings).1
          op kernel filter.dims
          (deconvStage (inputNode graph op.input_name input).1 op input filter
            (inputNode graph op.input_name input).2 paddings).2 := by
  unfold ConvTransposeConverter at hs ⊢
  cases hc : checkedInputs op kernel with
  | error e => simp [hc, Outcome.succeeded] at hs
  | ok r =>
    obtain ⟨input, filter⟩ := r
    cases hp : normalizePaddings op.paddings with
    | none => simp [hc, hp, Outcome.succeeded] at hs
    | some paddings =>
      exact ⟨input, filter, paddings, (checkedInputs_ok_iff op kernel input filter).1 hc, rfl, rfl⟩

theorem biasStage_cases {g : Graph} {op : OpLite} {kernel : KernelBase} {filter_dims : List Int}
    {c : Nat} (hs : (biasStage g op kernel filter_dims c).succeeded = true) :
    (op.bias_name = none ∧ biasStage g op kernel filter_dims c = reluStage g op c) ∨
    (∃ b g1 n, op.bias_name = some b ∧ biasNode g op kernel filter_dims b = .ok (g1, n) ∧
      biasStage g op kernel filter_dims c =
        reluStage (g1.Add op.output_name (.Add c n)).1 op g1.nodes.length) := by
  unfold biasStage at hs ⊢
  cases hb : op.bias_name with
  | none => left; exact ⟨rfl, rfl⟩
  | some b =>
    right
    simp only [hb] at hs
    cases hn : biasNode g op kernel filter_dims b with
    | error e => simp [hn, Outcome.succeeded] at hs
    | ok r =>
      obtain ⟨g1, n⟩ := r
      refine ⟨b, g1, n, rfl, hn, ?_⟩
      simp [hn]

/-! Output-size arithmetic -/

theorem input_sizes_eq (input_dims filter_dims strides dilations paddings : List Int)
    (groups : Int) (hs : strides.length = 2) :
    input_sizes input_dims filter_dims strides dilations paddings groups =
      [toInt32 (idx input_dims 0), toInt32 (idx filter_dims 1 * groups),
       output_size input_dims filter_dims strides dilations paddings 0,
       output_size input_dims filter_dims strides dilations paddings 1] := by
  unfold input_sizes
  rw [hs]
  rfl

theorem output_size_eq (input_dims filter_dims strides dilations paddings : List Int) (i : Nat) :
    output_size input_dims filter_dims strides dilations paddings i =
      toInt32 ((idx input_dims (i + 2) - 1) * idx strides i
        + idx dilations i * (idx filter_dims (i + 2) - 1) + 1 - 2 * idx paddings i) := by
  unfold output_size
  simp only []
  rw [toInt32_absorb]
  congr 1
  ring

theorem append_ne_self (s : String) : s ++ "/input_sizes" ≠ s := by
  intro h
  have := congrArg String.length h
  rw [String.length_append] at this
  have h12 : "/input_sizes".length = 12 := by decide
  omega

/-! Every outcome of a call -/

/-- Every way a call can end: a failed check of lines 34-59, the failed
padding check, a failed bias check, or the `return` statement without or with
a bias. -/
theorem converter_outcome (graph : Graph) (op : OpLite) (kernel : KernelBase) :
    (∃ e, checkedInputs op kernel = .error e ∧
      ConvTransposeConverter graph op kernel = { graph := graph, status := .error e }) ∨
    ∃ input filter, inputsValid op kernel input filter ∧
      ((normalizePaddings op.paddings = none ∧
        ConvTransposeConverter graph op kernel =
          { graph := (inputNode graph op.input_name input).1,
            status := .error .paddings_size }) ∨
       ∃ paddings, normalizePaddings op.paddings = some paddings ∧
        ((∃ b e, op.bias_name = some b ∧
            biasNode (deconvStage (inputNode graph op.input_name input).1 op input filter
              (inputNode graph op.input_name input).2 paddings).1 op kernel filter.dims b
              = .error e ∧
            ConvTransposeConverter graph op kernel =
              { graph := (deconvStage (inputNode graph op.input_name input).1 op input filter
                  (inputNode graph op.input_name input).2 paddings).1,
                status := .error e }) ∨
         (op.bias_name = none ∧
            ConvTransposeConverter graph op kernel =
              reluStage (deconvStage (inputNode graph op.input_name input).1 op input filter
                  (inputNode graph op.input_name input).2 paddings).1 op
                (deconvStage (inputNode graph op.input_name input).1 op input filter
                  (inputNode graph op.input_name input).2 paddings).2) ∨
         (∃ b g1 n, op.bias_name = some b ∧
            biasNode (deconvStage (inputNode graph op.input_name input).1 op input filter
              (inputNode graph op.input_name input).2 paddings).1 op kernel filter.dims b
              = .ok (g1, n) ∧
            ConvTransposeConverter graph op kernel =
              reluStage (g1.Add op.output_name
                (.Add (deconvStage (inputNode graph op.input_name input).1 op input filter
                  (inputNode graph op.input_name input).2 paddings).2 n)).1 op
                g1.nodes.length))) := by
  unfold ConvTransposeConverter
  cases hc : checkedInputs op kernel with
  | error e => left; exact ⟨e, rfl, rfl⟩
  | ok r =>
    obtain ⟨input, filter⟩ := r
    right
    refine ⟨input, filter, (checkedInputs_ok_iff op kernel input filter).1 hc, ?_⟩
    cases hp : normalizePaddings op.paddings with
    | none => left; exact ⟨rfl, rfl⟩
    | some paddings =>
      right
      refine ⟨paddings, rfl, ?_⟩
      simp only []
      unfold biasStage
      cases hb : op.bias_name with
      | none => right; left; exact ⟨rfl, rfl⟩
      | some b =>
        simp only []
        cases hn : biasNode (deconvStage (inputNode graph op.input_name input).1 op input filter
              (inputNode graph op.input_name input).2 paddings).1 op kernel filter.dims b with
        | error e => left; exact ⟨b, e, rfl, hn, rfl⟩
        | ok r =>
          obtain ⟨g1, n⟩ := r
          right; right
          exact ⟨b, g1, n, rfl, hn, rfl⟩

theorem stage_Get_none_iff (g : Graph) (op : OpLite) (input filter : Tensor) (x : Nat)
    (paddings : List Int) (b : String) :
    (deconvStage (inputNode g op.input_name input).1 op input filter x paddings).1.Get b = none ↔
      (g.Get b = none ∧ b ≠ op.input_name ∧ b ≠ op.filter_name ∧ b ≠ op.output_name ∧
        b ≠ op.output_name ++ "/input_sizes") := by
  rw [deconvStage_Get, inputNode_Get]
  by_cases h1 : b = op.output_name
  · subst h1; simp
  by_cases h2 : b = op.filter_name
  · subst h2; simp [h1]
  by_cases h3 : b = op.output_name ++ "/input_sizes"
  · subst h3; simp [h1, h2]
  by_cases h4 : b = op.input_name
  · subst h4; simp [h1, h2, h3]
  simp [h1, h2, h3, h4]

theorem biasNode_error_of_mismatch {g : Graph} {op : OpLite} (kernel : KernelBase)
    (filter_dims : List Int) {b : String} (hget : g.Get b = none)
    (hm : ∀ bias, op.scope b = some bias →
      toInt64 (production bias.dims) ≠ toInt64 (idx filter_dims 1 * op.groups)) :
    ∃ e, biasNode g op kernel filter_dims b = .error e := by
  unfold biasNode
  generalize kernel.GetInputDeclType "Bias" = tb
  simp only [hget]
  by_cases h1 : tb.precision = PrecisionType.kFloat
  swap
  · exact ⟨.bias_precision, by simp [h1]⟩
  by_cases h2 : tb.layout = DataLayoutType.kNCHW
  swap
  · exact ⟨.bias_layout, by simp [h1, h2]⟩
  cases hs : op.scope b with
  | none => exact ⟨.bias_tensor, by simp [h1, h2]⟩
  | some bias => exact ⟨.bias_channel_size, by simp [h1, h2, hm bias hs]⟩

/-! The nodes of a successful conversion -/

theorem inputNode_cases (g : Graph) (n : String) (t : Tensor) :
    (g.Get n = some (inputNode g n t).2 ∧ (inputNode g n t).1 = g) ∨
    (g.Get n = none ∧ (inputNode g n t).2 = g.nodes.length ∧
      (inputNode g n t).1 = (g.Add n (.tensor t t.dims)).1) := by
  unfold inputNode
  cases h : g.Get n with
  | none => right; exact ⟨rfl, rfl, rfl⟩
  | some x => left; exact ⟨rfl, rfl⟩

/-- What a successful conversion appends to the list of nodes: possibly the
input node, then the descriptor, the filter and the deconvolution node, then
possibly a bias node, the add node when a bias is declared, and the activation
node when `fuse_relu` is set. -/
theorem converter_nodes {graph : Graph} {op : OpLite} {kernel : KernelBase}
    (hs : (ConvTransposeConverter graph op kernel).succeeded = true) :
    ∃ (input filter : Tensor) (paddings : List Int) (pre mid : List Node) (x : Nat),
      inputsValid op kernel input filter ∧
      normalizePaddings op.paddings = some paddings ∧
      ((graph.Get op.input_name = some x ∧ pre = []) ∨
       (graph.Get op.input_name = none ∧ x = graph.nodes.length ∧
        pre = [{ name := op.input_name, data := .tensor input input.dims }])) ∧
      ((op.bias_name = none ∧ mid = []) ∨
       (∃ b n, op.bias_name = some b ∧
          (deconvStage (inputNode graph op.input_name input).1 op input filter x
            paddings).1.Get b = some n ∧
          mid = [{ name := op.output_name,
                   data := .Add (graph.nodes.length + pre.length + 2) n }] ∧
          (b ≠ op.output_name →
            (ConvTransposeConverter graph op kernel).graph.Get b = some n)) ∨
       (∃ b bias, op.bias_name = some b ∧
          (deconvStage (inputNode graph op.input_name input).1 op input filter x
            paddings).1.Get b = none ∧
          (kernel.GetInputDeclType "Bias").precision = PrecisionType.kFloat ∧
          (kernel.GetInputDeclType "Bias").layout = DataLayoutType.kNCHW ∧
          op.scope b = some bias ∧
          toInt64 (production bias.dims) = toInt64 (idx filter.dims 1 * op.groups) ∧
          mid = [{ name := b,
                   data := .tensor bias [1, toInt64 (production bias.dims), 1, 1] },
                 { name := op.output_name,
                   data := .Add (graph.nodes.length + pre.length + 2)
                    (graph.nodes.length + pre.length + 3) }] ∧
          (ConvTransposeConverter graph op kernel).graph.Get b =
            some (graph.nodes.length + pre.length + 3))) ∧
      (ConvTransposeConverter graph op kernel).graph.nodes =
        graph.nodes ++ pre ++
          [{ name := op.output_name ++ "/input_sizes",
             data := .constInt
              (input_sizes input.dims filter.dims op.strides op.dilations paddings op.groups) },
           { name := op.filter_name, data := .tensor filter filter.dims },
           { name := op.output_name,
             data := .Deconvolution (deconvolution op filter.dims paddings
              (graph.nodes.length + pre.length) (graph.nodes.length + pre.length + 1) x) }] ++
          mid ++
          (if op.fuse_relu = some true then
            [{ name := op.output_name,
               data := .Activation (graph.nodes.length + pre.length + 2 + mid.length) "relu" }]
           else []) ∧
      (op.filter_name ≠ op.output_name ++ "/input_sizes" →
        (ConvTransposeConverter graph op kernel).graph.Get (op.output_name ++ "/input_sizes") =
          some (graph.nodes.length + pre.length)) := by
  obtain ⟨input, filter, paddings, hv, hp, hrun⟩ := converter_run hs
  rw [hrun] at hs ⊢
  -- the input stage
  have hin : ∃ (pre : List Node) (x : Nat),
      ((graph.Get op.input_name = some x ∧ pre = []) ∨
       (graph.Get op.input_name = none ∧ x = graph.nodes.length ∧
        pre = [{ name := op.input_name, data := .tensor input input.dims }])) ∧
      (inputNode graph op.input_name input).2 = x ∧
      (inputNode graph op.input_name input).1.nodes = graph.nodes ++ pre := by
    rcases inputNode_cases graph op.input_name input with ⟨h1, h2⟩ | ⟨h1, h2, h3⟩
    · exact ⟨[], _, Or.inl ⟨h1, rfl⟩, rfl, by rw [h2]; simp⟩
    · exact ⟨_, _, Or.inr ⟨h1, rfl, rfl⟩, h2, by rw [h3]; simp⟩
  obtain ⟨pre, x, hpre, hx, hnodes⟩ := hin
  rw [hx] at hs ⊢
  have hlen : (inputNode graph op.input_name input).1.nodes.length =
      graph.nodes.length + pre.length := by rw [hnodes]; simp
  rcases biasStage_cases hs with ⟨hb, e⟩ | ⟨b, g1, n, hb, hbn, e⟩
  · refine ⟨input, filter, paddings, pre, [], x, hv, hp, hpre, Or.inl ⟨hb, rfl⟩, ?_, ?_⟩
    · rw [e, reluStage_nodes, deconvStage_nodes, deconvStage_snd]
      simp [hnodes, Nat.add_assoc]
    · intro hne
      rw [e, reluStage_Get, deconvStage_Get]
      simp [append_ne_self, hne.symm, hlen]
  · rcases biasNode_ok hbn with ⟨hget, hg1⟩ | ⟨hget, hn, hp1, hp2, bias, hsc, hprod, hg1⟩
    · refine ⟨input, filter, paddings, pre, _, x, hv, hp, hpre,
        Or.inr (Or.inl ⟨b, n, hb, hget, rfl, ?_⟩), ?_, ?_⟩
      · intro hne
        rw [e, reluStage_Get, Get_Add, hg1, hget]
        simp [hne]
      · rw [e, reluStage_nodes, hg1, Add_nodes, deconvStage_nodes, deconvStage_snd]
        simp [hnodes, Nat.add_assoc]
      · intro hne
        rw [e, reluStage_Get, Get_Add, hg1, deconvStage_Get]
        simp [append_ne_self, hne.symm, hlen]
    · have hne : b ≠ op.output_name :=
        ((stage_Get_none_iff graph op input filter x paddings b).1 hget).2.2.2.1
      refine ⟨input, filter, paddings, pre, _, x, hv, hp, hpre,
        Or.inr (Or.inr ⟨b, bias, hb, hget, hp1, hp2, hsc, hprod, rfl, ?_⟩), ?_, ?_⟩
      · rw [e, reluStage_Get, Get_Add, hg1, Get_Add, deconvStage_nodes]
        simp [hne, hnodes, Nat.add_assoc]
      · rw [deconvStage_nodes] at hn
        rw [e, reluStage_nodes, hg1, Add_nodes, Add_nodes, deconvStage_nodes, deconvStage_snd]
        simp [hn, hnodes, Nat.add_assoc]
      · intro hnf
        have hbs : op.output_name ++ "/input_sizes" ≠ b :=
          fun h => ((stage_Get_none_iff graph op input filter x paddings b).1 hget).2.2.2.2
            h.symm
        rw [e, reluStage_Get, Get_Add, hg1, Get_Add, deconvStage_Get]
        simp [append_ne_self, hnf.symm, hlen, hbs]

/-! Registered names -/

theorem Has_Add_mono {g : Graph} {m : String} (n : String) (d : NodeData)
    (h : g.Has m = true) : (g.Add n d).1.Has m = true := by
  unfold Graph.Has at h ⊢
  rw [Get_Add]
  split
  · rfl
  · exact h

theorem Has_Add_self (g : Graph) (n : String) (d : NodeData) : (g.Add n d).1.Has n = true := by
  unfold Graph.Has
  rw [Get_Add]
  simp

theorem inputNode_Has_self (g : Graph) (n : String) (t : Tensor) :
    (inputNode g n t).1.Has n = true := by
  unfold Graph.Has
  rw [inputNode_Get]
  simp

theorem inputNode_Has_mono {g : Graph} {m : String} (n : String) (t : Tensor)
    (h : g.Has m = true) : (inputNode g n t).1.Has m = true := by
  rcases inputNode_cases g n t with ⟨-, e⟩ | ⟨-, -, e⟩
  · rw [e]; exact h
  · rw [e]; exact Has_Add_mono _ _ h

theorem deconvStage_Has_mono {g : Graph} {m : String} (op : OpLite) (input filter : Tensor)
    (x : Nat) (paddings : List Int) (h : g.Has m = true) :
    (deconvStage g op input filter x paddings).1.Has m = true := by
  unfold deconvStage
  exact Has_Add_mono _ _ (Has_Add_mono _ _ (Has_Add_mono _ _ h))

theorem reluStage_Has_mono {g : Graph} {m : String} (op : OpLite) (c : Nat)
    (h : g.Has m = true) : (reluStage g op c).graph.Has m = true := by
  unfold reluStage
  split
  · exact Has_Add_mono _ _ h
  · exact h

theorem biasNode_Has_mono {g g1 : Graph} {op : OpLite} {kernel : KernelBase}
    {filter_dims : List Int} {b : String} {n : Nat} {m : String}
    (hb : biasNode g op kernel filter_dims b = .ok (g1, n)) (h : g.Has m = true) :
    g1.Has m = true := by
  rcases biasNode_ok hb with ⟨-, e⟩ | ⟨-, -, -, -, bias, -, -, e⟩
  · rw [e]; exact h
  · rw [e]; exact Has_Add_mono _ _ h

theorem biasNode_Has_self {g g1 : Graph} {op : OpLite} {kernel : KernelBase}
    {filter_dims : List Int} {b : String} {n : Nat}
    (hb : biasNode g op kernel filter_dims b = .ok (g1, n)) : g1.Has b = true := by
  rcases biasNode_ok hb with ⟨hg, e⟩ | ⟨-, -, -, -, bias, -, -, e⟩
  · rw [e]; unfold Graph.Has; rw [hg]; rfl
  · rw [e]; exact Has_Add_self _ _ _

/-- A registered name stays registered, however the call ends. -/
theorem converter_Has_mono (graph : Graph) (op : OpLite) (kernel : KernelBase) {m : String}
    (h : graph.Has m = true) : (ConvTransposeConverter graph op kernel).graph.Has m = true := by
  rcases converter_outcome graph op kernel with ⟨e, -, he⟩ |
    ⟨input, filter, -, ⟨-, he⟩ | ⟨paddings, -, ⟨b, e, -, -, he⟩ | ⟨-, he⟩ | ⟨b, g1, n, -, hb, he⟩⟩⟩
  · rw [he]; exact h
  · rw [he]; exact inputNode_Has_mono _ _ h
  · rw [he]; exact deconvStage_Has_mono _ _ _ _ _ (inputNode_Has_mono _ _ h)
  · rw [he]; exact reluStage_Has_mono _ _ (deconvStage_Has_mono _ _ _ _ _ (inputNode_Has_mono _ _ h))
  · rw [he]
    exact reluStage_Has_mono _ _ (Has_Add_mono _ _
      (biasNode_Has_mono hb (deconvStage_Has_mono _ _ _ _ _ (inputNode_Has_mono _ _ h))))

/-- After a successful call the input name and the bias name are registered. -/
theorem succeeded_Has {graph : Graph} {op : OpLite} {kernel : KernelBase}
    (hs : (ConvTransposeConverter graph op kernel).succeeded = true) :
    (ConvTransposeConverter graph op kernel).graph.Has op.input_name = true ∧
    ∀ b, op.bias_name = some b →
      (ConvTransposeConverter graph op kernel).graph.Has b = true := by
  rcases converter_outcome graph op kernel with ⟨e, -, he⟩ |
    ⟨input, filter, -, ⟨-, he⟩ | ⟨paddings, -, ⟨b, e, -, -, he⟩ | ⟨hn, he⟩ | ⟨b, g1, n, hbn, hb, he⟩⟩⟩
  · rw [he] at hs; simp [Outcome.succeeded] at hs
  · rw [he] at hs; simp [Outcome.succeeded] at hs
  · rw [he] at hs; simp [Outcome.succeeded] at hs
  · rw [he]
    refine ⟨reluStage_Has_mono _ _ (deconvStage_Has_mono _ _ _ _ _ (inputNode_Has_self _ _ _)), ?_⟩
    intro b hb
    rw [hn] at hb
    cases hb
  · rw [he]
    refine ⟨reluStage_Has_mono _ _ (Has_Add_mono _ _
      (biasNode_Has_mono hb (deconvStage_Has_mono _ _ _ _ _ (inputNode_Has_self _ _ _)))), ?_⟩
    intro b1 hb1
    rw [hbn] at hb1
    cases hb1
    exact reluStage_Has_mono _ _ (Has_Add_mono _ _ (biasNode_Has_self hb))

/-- A node created by a call is named after the descriptor, the filter or the
output, or after a name that was not registered before the call. -/
theorem created_names (graph : Graph) (op : OpLite) (kernel : KernelBase) :
    ∀ n ∈ created graph (ConvTransposeConverter graph op kernel).graph,
      n.name = op.output_name ++ "/input_sizes" ∨ n.name = op.filter_name ∨
      n.name = op.output_name ∨ graph.Get n.name = none := by
  have hin : ∀ input : Tensor, ∃ pre : List Node,
      (inputNode graph op.input_name input).1.nodes = graph.nodes ++ pre ∧
      ∀ n ∈ pre, graph.Get n.name = none := by
    intro input
    rcases inputNode_cases graph op.input_name input with ⟨-, e⟩ | ⟨hg, -, e⟩
    · exact ⟨[], by rw [e]; simp, by simp⟩
    · exact ⟨_, by rw [e]; rfl, by simpa using hg⟩
  rcases converter_outcome graph op kernel with ⟨e, -, he⟩ |
    ⟨input, filter, -, ⟨-, he⟩ | ⟨paddings, -, ⟨b, e, -, -, he⟩ | ⟨-, he⟩ | ⟨b, g1, n, -, hb, he⟩⟩⟩
  · rw [he]; simp [created]
  · obtain ⟨pre, hpre, hn⟩ := hin input
    rw [he]
    simp only [created, hpre, List.drop_left]
    intro n hmem
    exact Or.inr (Or.inr (Or.inr (hn n hmem)))
  · obtain ⟨pre, hpre, hn⟩ := hin input
    rw [he]
    simp only [created, deconvStage_nodes, hpre, List.append_assoc, List.drop_left]
    intro n hmem
    simp only [List.mem_append, List.mem_cons, List.mem_singleton, List.not_mem_nil, or_false]
      at hmem
    rcases hmem with h | rfl | rfl | rfl
    · exact Or.inr (Or.inr (Or.inr (hn n h)))
    · exact Or.inl rfl
    · exact Or.inr (Or.inl rfl)
    · exact Or.inr (Or.inr (Or.inl rfl))
  · obtain ⟨pre, hpre, hn⟩ := hin input
    rw [he]
    simp only [created, reluStage_nodes, deconvStage_nodes, hpre, List.append_assoc,
      List.drop_left]
    intro n hmem
    simp only [List.mem_append, List.mem_cons, List.mem_singleton, List.not_mem_nil, or_false]
      at hmem
    rcases hmem with h | (rfl | rfl | rfl) | h
    · exact Or.inr (Or.inr (Or.inr (hn n h)))
    · exact Or.inl rfl
    · exact Or.inr (Or.inl rfl)
    · exact Or.inr (Or.inr (Or.inl rfl))
    · split at h
      · simp at h; subst h; exact Or.inr (Or.inr (Or.inl rfl))
      · simp at h
  · obtain ⟨pre, hpre, hn⟩ := hin input
    rw [he]
    have hrelu : ∀ (c : Nat) (n : Node), n ∈ (if op.fuse_relu = some true then
        [({ name := op.output_name, data := .Activation c "relu" } : Node)] else []) →
        n.name = op.output_name := by
      intro c n h
      split at h
      · simp at h; subst h; rfl
      · simp at h
    rcases biasNode_ok hb with ⟨-, e⟩ | ⟨hg, -, -, -, bias, -, -, e⟩
    · rw [e]
      simp only [created, reluStage_nodes, Add_nodes, deconvStage_nodes, hpre,
        List.append_assoc, List.drop_left]
      intro n hmem
      simp only [List.mem_append, List.mem_cons, List.mem_singleton, List.not_mem_nil, or_false]
        at hmem
      rcases hmem with h | (rfl | rfl | rfl) | rfl | h
      · exact Or.inr (Or.inr (Or.inr (hn n h)))
      · exact Or.inl rfl
      · exact Or.inr (Or.inl rfl)
      · exact Or.inr (Or.inr (Or.inl rfl))
      · exact Or.inr (Or.inr (Or.inl rfl))
      · exact Or.inr (Or.inr (Or.inl (hrelu _ n h)))
    · rw [e]
      have hgb := ((stage_Get_none_iff graph op input filter _ paddings b).1 hg).1
      simp only [created, reluStage_nodes, Add_nodes, deconvStage_nodes, hpre,
        List.append_assoc, List.drop_left]
      intro n hmem
      simp only [List.mem_append, List.mem_cons, List.mem_singleton, List.not_mem_nil, or_false]
        at hmem
      rcases hmem with h | (rfl | rfl | rfl) | rfl | rfl | h
      · exact Or.inr (Or.inr (Or.inr (hn n h)))
      · exact Or.inl rfl
      · exact Or.inr (Or.inl rfl)
      · exact Or.inr (Or.inr (Or.inl rfl))
      · exact Or.inr (Or.inr (Or.inr hgb))
      · exact Or.inr (Or.inr (Or.inl rfl))
      · exact Or.inr (Or.inr (Or.inl (hrelu _ n h)))


theorem getElem?_shift (A B R : List Node) (i k : Nat) (h : i = A.length + B.length + k) :
    (A ++ B ++ R)[i]? = R[k]? := by
  subst h
  rw [List.getElem?_append_right (by simp)]
  simp


theorem quad_eq_self {p : List Int} (h : p.length = 4) :
    [idx p 0, idx p 1, idx p 2, idx p 3] = p := by
  match p, h with
  | [a, b, c, d], _ => rfl

theorem succeeded_or_failed (o : Outcome) : o.succeeded = true ∨ o.failed = true := by
  unfold Outcome.failed
  cases o.succeeded <;> simp

theorem declType_eq {t : DeclType} (h1 : t.precision = PrecisionType.kFloat)
    (h2 : t.layout = DataLayoutType.kNCHW) :
    t = { precision := .kFloat, layout := .kNCHW } := by
  cases t
  simp only at h1 h2
  rw [h1, h2]

theorem normalizePaddings_isSome {p : List Int} (h : p.length = 2 ∨ p.length = 4) :
    ∃ q, normalizePaddings p = some q := by
  rcases h with h | h
  · match p, h with
    | [a, b], _ => exact ⟨_, normalizePaddings_pair a b⟩
  · exact ⟨p, normalizePaddings_quad h⟩

theorem biasNode_ok_of_valid (g : Graph) (op : OpLite) {kernel : KernelBase}
    {filter_dims : List Int} {b : String}
    (ht : kernel.GetInputDeclType "Bias" = { precision := .kFloat, layout := .kNCHW })
    (hb : ∃ bias, op.scope b = some bias ∧
      production bias.dims = idx filter_dims 1 * op.groups) :
    ∃ r, biasNode g op kernel filter_dims b = .ok r := by
  obtain ⟨bias, hs, hp⟩ := hb
  unfold biasNode
  cases hg : g.Get b with
  | some n => exact ⟨_, rfl⟩
  | none =>
    rw [ht]
    simp only [hs]
    exact ⟨g.Add b (.tensor bias [1, toInt64 (production bias.dims), 1, 1]), by simp [hp]⟩

/-- After a successful call the output name is registered to the node created
last. -/
theorem succeeded_Get_output {graph : Graph} {op : OpLite} {kernel : KernelBase}
    (hs : (ConvTransposeConverter graph op kernel).succeeded = true) :
    (ConvTransposeConverter graph op kernel).graph.Get op.output_name =
      some ((ConvTransposeConverter graph op kernel).graph.nodes.length - 1) := by
  rcases converter_outcome graph op kernel with ⟨e, -, he⟩ |
    ⟨input, filter, -, ⟨-, he⟩ | ⟨paddings, -, ⟨b, e, -, -, he⟩ | ⟨-, he⟩ | ⟨b, g1, n, -, -, he⟩⟩⟩
  · rw [he] at hs; simp [Outcome.succeeded] at hs
  · rw [he] at hs; simp [Outcome.succeeded] at hs
  · rw [he] at hs; simp [Outcome.succeeded] at hs
  · rw [he, reluStage_Get, reluStage_nodes, deconvStage_Get, deconvStage_nodes]
    by_cases hr : op.fuse_relu = some true <;> simp [hr]
  · rw [he, reluStage_Get, reluStage_nodes, Get_Add, Add_nodes]
    by_cases hr : op.fuse_relu = some true <;> simp [hr]

theorem Has_eq_false_iff (g : Graph) (n : String) : g.Has n = false ↔ g.Get n = none := by
  unfold Graph.Has
  cases g.Get n <;> simp

theorem inputNode_snd_of_Get {g : Graph} {n : String} {m : Nat} (t : Tensor)
    (h : g.Get n = some m) : (inputNode g n t).2 = m := by
  simp [inputNode, h]

theorem converter_eq_of_paddings_none {graph : Graph} {op : OpLite} {kernel : KernelBase}
    {input filter : Tensor} (hv : inputsValid op kernel input filter)
    (hp : normalizePaddings op.paddings = none) :
    ConvTransposeConverter graph op kernel =
      { graph := (inputNode graph op.input_name input).1, status := .error .paddings_size } := by
  have hc := (checkedInputs_ok_iff op kernel input filter).2 hv
  unfold ConvTransposeConverter
  simp only [hc, hp]

theorem biasNode_channel_mismatch {g : Graph} {op : OpLite} {kernel : KernelBase}
    {filter_dims : List Int} {b : String} {bias : Tensor} (hget : g.Get b = none)
    (ht : kernel.GetInputDeclType "Bias" = { precision := .kFloat, layout := .kNCHW })
    (hs : op.scope b = some bias)
    (hm : toInt64 (production bias.dims) ≠ toInt64 (idx filter_dims 1 * op.groups)) :
    biasNode g op kernel filter_dims b = .error .bias_channel_size := by
  unfold biasNode
  rw [ht]
  simp [hget, hs, hm]

theorem converter_eq_of_bias_error {graph : Graph} {op : OpLite} {kernel : KernelBase}
    {input filter : Tensor} {paddings : List Int} {b : String} {e : CheckFailure}
    (hv : inputsValid op kernel input filter)
    (hp : normalizePaddings op.paddings = some paddings) (hb : op.bias_name = some b)
    (he : biasNode (deconvStage (inputNode graph op.input_name input).1 op input filter
      (inputNode graph op.input_name input).2 paddings).1 op kernel filter.dims b = .error e) :
    ConvTransposeConverter graph op kernel =
      { graph := (deconvStage (inputNode graph op.input_name input).1 op input filter
          (inputNode graph op.input_name input).2 paddings).1,
        status := .error e } := by
  have hc := (checkedInputs_ok_iff op kernel input filter).2 hv
  unfold ConvTransposeConverter
  simp only [hc, hp]
  unfold biasStage
  simp only [hb, he]

/-- The only integer-vector node a successful conversion creates is the
descriptor, computed from the normalised paddings. -/
theorem created_constInt {graph : Graph} {op : OpLite} {kernel : KernelBase}
    {input filter : Tensor}
    (hs : (ConvTransposeConverter graph op kernel).succeeded = true)
    (hin : op.scope op.input_name = some input)
    (hf : op.scope op.filter_name = some filter) :
    ∃ paddings, normalizePaddings op.paddings = some paddings ∧
      (created graph (ConvTransposeConverter graph op kernel).graph).filter
          (fun n => n.data.isConstInt) =
        [{ name := op.output_name ++ "/input_sizes",
           data := .constInt [toInt32 (idx input.dims 0), toInt32 (idx filter.dims 1 * op.groups),
            output_size input.dims filter.dims op.strides op.dilations paddings 0,
            output_size input.dims filter.dims op.strides op.dilations paddings 1] }] := by
  obtain ⟨input1, filter1, paddings, pre, mid, x, hv, hnp, hpre, hmid, hnodes, -⟩ :=
    converter_nodes hs
  obtain ⟨-, -, hsi, -, -, -, hsf, -, -, -, hst, -⟩ := hv
  have hi : input1 = input := by rw [hin] at hsi; exact (Option.some.inj hsi).symm
  have hfl : filter1 = filter := by rw [hf] at hsf; exact (Option.some.inj hsf).symm
  subst hi
  subst hfl
  refine ⟨paddings, hnp, ?_⟩
  rw [input_sizes_eq _ _ _ _ _ _ hst] at hnodes
  simp only [created, hnodes, List.append_assoc, List.drop_left]
  rcases hpre with ⟨-, rfl⟩ | ⟨-, -, rfl⟩ <;>
    rcases hmid with ⟨-, rfl⟩ | ⟨b, n, -, -, rfl, -⟩ | ⟨b, bias, -, -, -, -, -, -, rfl, -⟩ <;>
    by_cases hr : op.fuse_relu = some true <;>
    simp [hr, NodeData.isConstInt]

theorem converter_status_of_valid (graph : Graph) (op : OpLite) (kernel : KernelBase)
    (input filter : Tensor)
    (hv : inputsValid op kernel input filter)
    (hp : op.paddings.length = 2 ∨ op.paddings.length = 4)
    (hb : ∀ b, op.bias_name = some b →
      kernel.GetInputDeclType "Bias" = { precision := .kFloat, layout := .kNCHW } ∧
      ∃ bias, op.scope b = some bias ∧
        production bias.dims = idx filter.dims 1 * op.groups) :
    (ConvTransposeConverter graph op kernel).status = .ok .REBUILD_WHEN_SHAPE_CHANGED := by
  have hc := (checkedInputs_ok_iff op kernel input filter).2 hv
  obtain ⟨q, hq⟩ := normalizePaddings_isSome hp
  rcases converter_outcome graph op kernel with ⟨e, hce, -⟩ |
    ⟨input1, filter1, hv1, ⟨hn, -⟩ | ⟨paddings, -, ⟨b, e, hbn, hbe, -⟩ | ⟨-, he⟩ | ⟨b, g1, n, -, -, he⟩⟩⟩
  · rw [hc] at hce; cases hce
  · rw [hq] at hn; cases hn
  · exfalso
    have hf : filter1 = filter := by
      have h1 := hv1.2.2.2.2.2.2.1
      rw [hv.2.2.2.2.2.2.1] at h1
      exact (Option.some.inj h1).symm
    subst hf
    obtain ⟨ht, hbias⟩ := hb b hbn
    obtain ⟨r, hr⟩ := biasNode_ok_of_valid
      (deconvStage (inputNode graph op.input_name input1).1 op input1 filter1
        (inputNode graph op.input_name input1).2 paddings).1 op ht hbias
    rw [hr] at hbe
    cases hbe
  · rw [he]; exact reluStage_status _ _ _
  · rw [he]; exact reluStage_status _ _ _

theorem succeeded_of_status {o : Outcome} {s : Status} (h : o.status = .ok s) :
    o.succeeded = true := by
  unfold Outcome.succeeded
  rw [h]

/-! Padding normalisation -/

/-- C1: a 2-element `paddings` attribute `[p0, p1]` is normalised to
`[p0, p0, p1, p1]`, a 4-element attribute is normalised to itself, and with an
attribute of any other length the normalisation yields nothing and the
conversion fails, whatever the registry, the operator and the kernel are. -/
theorem paddings_normalization (graph : Graph) (op : OpLite) (kernel : KernelBase) :
    (∀ p0 p1 : Int, op.paddings = [p0, p1] →
        normalizePaddings op.paddings = some [p0, p0, p1, p1]) ∧
    (op.paddings.length = 4 → normalizePaddings op.paddings = some op.paddings) ∧
    (op.paddings.length ≠ 2 → op.paddings.length ≠ 4 →
        normalizePaddings op.paddings = none ∧
        (ConvTransposeConverter graph op kernel).failed = true) := by
  refine ⟨?_, ?_, ?_⟩
  · intro p0 p1 h
    rw [h]
    exact normalizePaddings_pair p0 p1
  · intro h
    exact normalizePaddings_quad h
  · intro h2 h4
    exact ⟨normalizePaddings_other h2 h4,
      converter_failed_of_paddings graph op kernel (normalizePaddings_other h2 h4)⟩

/-- The three cases of C1 on the sample operator: paddings `[1, 1]`,
`[1, 0, 1, 0]` and `[1, 2, 3]`. -/
theorem paddings_normalization_witness :
    normalizePaddings sampleOp.paddings = some [1, 1, 1, 1] ∧
    normalizePaddings [1, 0, 1, 0] = some [1, 0, 1, 0] ∧
    (normalizePaddings [1, 2, 3] = none ∧
      (ConvTransposeConverter emptyGraph { sampleOp with paddings := [1, 2, 3] }
        floatKernel).failed = true) :=
  ⟨(paddings_normalization emptyGraph sampleOp floatKernel).1 1 1 rfl,
   (paddings_normalization emptyGraph { sampleOp with paddings := [1, 0, 1, 0] }
      floatKernel).2.1 rfl,
   (paddings_normalization emptyGraph { sampleOp with paddings := [1, 2, 3] }
      floatKernel).2.2 (by decide) (by decide)⟩

/-! The output-size descriptor -/

/-- C2 (evaluation at the failing inputs): on input `[1,4,8,8]`, filter
`[4,8,3,3]`, stride `[2,2]`, dilation `[1,1]`, the descriptor for paddings
`[1,0,1,0]` is `[1,8,15,17]` (width entry `(8-1)*2 + 3 - 2*0`, not
`(8-1)*2 + 3 - 2*1 = 15`), and the descriptor for paddings `[1,2]`, normalised
to `[1,1,2,2]`, is `[1,8,15,15]` (width entry `(8-1)*2 + 3 - 2*1`, not
`(8-1)*2 + 3 - 2*2 = 13`). -/
theorem output_width_reads_second_padding_entry :
    (created emptyGraph
        (ConvTransposeConverter emptyGraph { sampleOp with paddings := [1, 0, 1, 0] }
          floatKernel).graph).filter (fun n => n.data.isConstInt) =
      [{ name := "y/input_sizes", data := .constInt [1, 8, 15, 17] }] ∧
    (created emptyGraph
        (ConvTransposeConverter emptyGraph { sampleOp with paddings := [1, 2] }
          floatKernel).graph).filter (fun n => n.data.isConstInt) =
      [{ name := "y/input_sizes", data := .constInt [1, 8, 15, 15] }] ∧
    normalizePaddings [1, 2] = some [1, 1, 2, 2] := by
  decide

/-- C3: when the conversion succeeds and the padding is the same value `p` on
every edge (`paddings = [p, p]` or `[p, p, p, p]`), the only integer-vector
node the conversion creates is named `output_name + "/input_sizes"` and holds
`[input_dims[0], filter_dims[1]*groups, (H_in-1)*s_h + d_h*(K_h-1) + 1 - 2p,
(W_in-1)*s_w + d_w*(K_w-1) + 1 - 2p]`, these four values being `int32_t`
values; it is the node the registry holds under that name after the call,
unless the filter has that very name. -/
theorem input_sizes_descriptor_uniform_padding (graph : Graph) (op : OpLite)
    (kernel : KernelBase) (input filter : Tensor) (p : Int)
    (hs : (ConvTransposeConverter graph op kernel).succeeded = true)
    (hin : op.scope op.input_name = some input)
    (hf : op.scope op.filter_name = some filter)
    (hp : op.paddings = [p, p] ∨ op.paddings = [p, p, p, p])
    (h0 : fitsInt32 (idx input.dims 0))
    (h1 : fitsInt32 (idx filter.dims 1 * op.groups))
    (h2 : fitsInt32 ((idx input.dims 2 - 1) * idx op.strides 0
      + idx op.dilations 0 * (idx filter.dims 2 - 1) + 1 - 2 * p))
    (h3 : fitsInt32 ((idx input.dims 3 - 1) * idx op.strides 1
      + idx op.dilations 1 * (idx filter.dims 3 - 1) + 1 - 2 * p)) :
    (created graph (ConvTransposeConverter graph op kernel).graph).filter
        (fun n => n.data.isConstInt) =
      [{ name := op.output_name ++ "/input_sizes",
         data := .constInt
          [idx input.dims 0, idx filter.dims 1 * op.groups,
           (idx input.dims 2 - 1) * idx op.strides 0
             + idx op.dilations 0 * (idx filter.dims 2 - 1) + 1 - 2 * p,
           (idx input.dims 3 - 1) * idx op.strides 1
             + idx op.dilations 1 * (idx filter.dims 3 - 1) + 1 - 2 * p] }] ∧
    (op.filter_name ≠ op.output_name ++ "/input_sizes" →
      ∃ node, (ConvTransposeConverter graph op kernel).graph.Get
          (op.output_name ++ "/input_sizes") = some node ∧
        (ConvTransposeConverter graph op kernel).graph.nodes[node]? =
          some { name := op.output_name ++ "/input_sizes",
                 data := .constInt
                  [idx input.dims 0, idx filter.dims 1 * op.groups,
                   (idx input.dims 2 - 1) * idx op.strides 0
                     + idx op.dilations 0 * (idx filter.dims 2 - 1) + 1 - 2 * p,
                   (idx input.dims 3 - 1) * idx op.strides 1
                     + idx op.dilations 1 * (idx filter.dims 3 - 1) + 1 - 2 * p] }) := by
  obtain ⟨input1, filter1, paddings, pre, mid, x, hv, hnp, hpre, hmid, hnodes, hsz⟩ :=
    converter_nodes hs
  obtain ⟨-, -, hsi, -, -, -, hsf, -, -, -, hst, -⟩ := hv
  have hi : input1 = input := by rw [hin] at hsi; exact (Option.some.inj hsi).symm
  have hfl : filter1 = filter := by rw [hf] at hsf; exact (Option.some.inj hsf).symm
  subst hi
  subst hfl
  have hpad : paddings = [p, p, p, p] := by
    rcases hp with hp | hp <;> rw [hp] at hnp
    · rw [normalizePaddings_pair] at hnp; exact (Option.some.inj hnp).symm
    · rw [@normalizePaddings_quad [p, p, p, p] rfl] at hnp; exact (Option.some.inj hnp).symm
  subst hpad
  have hsizes : input_sizes input1.dims filter1.dims op.strides op.dilations [p, p, p, p]
      op.groups =
      [idx input1.dims 0, idx filter1.dims 1 * op.groups,
       (idx input1.dims 2 - 1) * idx op.strides 0
         + idx op.dilations 0 * (idx filter1.dims 2 - 1) + 1 - 2 * p,
       (idx input1.dims 3 - 1) * idx op.strides 1
         + idx op.dilations 1 * (idx filter1.dims 3 - 1) + 1 - 2 * p] := by
    rw [input_sizes_eq _ _ _ _ _ _ hst, output_size_eq, output_size_eq,
      toInt32_of_fits h0, toInt32_of_fits h1]
    have e0 : idx [p, p, p, p] 0 = p := rfl
    have e1 : idx [p, p, p, p] 1 = p := rfl
    rw [e0, e1, toInt32_of_fits h2, toInt32_of_fits h3]
  rw [hsizes] at hnodes
  constructor
  · simp only [created, hnodes, List.append_assoc, List.drop_left]
    rcases hpre with ⟨-, rfl⟩ | ⟨-, -, rfl⟩ <;>
      rcases hmid with ⟨-, rfl⟩ | ⟨b, n, -, -, rfl, -⟩ | ⟨b, bias, -, -, -, -, -, -, rfl, -⟩ <;>
      by_cases hr : op.fuse_relu = some true <;>
      simp [hr, NodeData.isConstInt]
  · intro hne
    refine ⟨graph.nodes.length + pre.length, hsz hne, ?_⟩
    rw [hnodes]
    simp only [List.append_assoc]
    rw [← List.append_assoc, getElem?_shift _ _ _ _ 0 (by simp)]
    simp

/-- Witness of C3, the end-to-end example: input `[1,4,8,8]`, filter
`[4,8,3,3]`, one group, stride `[2,2]`, dilation `[1,1]`, padding `[1,1]`
gives the descriptor `[1, 8, 15, 15]`. -/
theorem input_sizes_descriptor_uniform_padding_witness :
    (ConvTransposeConverter emptyGraph sampleOp floatKernel).succeeded = true ∧
    ((created emptyGraph (ConvTransposeConverter emptyGraph sampleOp floatKernel).graph).filter
        (fun n => n.data.isConstInt) =
      [{ name := "y/input_sizes", data := .constInt [1, 8, 15, 15] }] ∧
     ("w" ≠ "y/input_sizes" →
      ∃ node, (ConvTransposeConverter emptyGraph sampleOp floatKernel).graph.Get
          "y/input_sizes" = some node ∧
        (ConvTransposeConverter emptyGraph sampleOp floatKernel).graph.nodes[node]? =
          some { name := "y/input_sizes", data := .constInt [1, 8, 15, 15] })) :=
  ⟨by decide,
   input_sizes_descriptor_uniform_padding emptyGraph sampleOp floatKernel
    { dims := [1, 4, 8, 8] } { dims := [4, 8, 3, 3] } 1 (by decide) rfl rfl (Or.inl rfl)
    (by decide) (by decide) (by decide) (by decide)⟩

/-! Round trip with the forward convolution -/

/-- C4 (counterexample): with `m = 8`, `s = 2`, `k = 3`, `p = 1` the forward
convolution gives `n = floor(7/2) + 1 = 4`, and from `n = 4` the converter
computes `(4-1)*2 + 3 - 2 = 7`, not `8`. -/
theorem roundtrip_fails_when_stride_does_not_divide :
    (1 ≤ (2 : Int) ∧ 1 ≤ (3 : Int) ∧ 0 ≤ (1 : Int) ∧ (3 : Int) ≤ 8 + 2 * 1) ∧
    forwardConvOutputSize 8 2 3 1 = 4 ∧
    output_size [1, 4, forwardConvOutputSize 8 2 3 1, forwardConvOutputSize 8 2 3 1]
      [4, 8, 3, 3] [2, 2] [1, 1] [1, 1, 1, 1] 0 = 7 ∧
    output_size [1, 4, forwardConvOutputSize 8 2 3 1, forwardConvOutputSize 8 2 3 1]
      [4, 8, 3, 3] [2, 2] [1, 1] [1, 1, 1, 1] 0 ≠ 8 := by
  decide

/-- C4 (amended): for stride `s ≥ 1`, kernel `k ≥ 1`, padding `p ≥ 0` on every
edge, dilation 1 and an original size `m` with `m + 2p ≥ k` that is an `int`
value, if `s` divides `m + 2p - k` then from the forward-convolution output
size `n = floor((m + 2p - k)/s) + 1` the converter computes, on both spatial
axes, the size `m`. -/
theorem roundtrip_when_stride_divides (m s k p batch chan c_in c_out : Int)
    (_hs : 1 ≤ s) (_hk : 1 ≤ k) (_hp : 0 ≤ p) (_hm : k ≤ m + 2 * p)
    (hdiv : s ∣ m + 2 * p - k) (hfit : fitsInt32 m) :
    output_size [batch, chan, forwardConvOutputSize m s k p, forwardConvOutputSize m s k p]
        [c_in, c_out, k, k] [s, s] [1, 1] [p, p, p, p] 0 = m ∧
    output_size [batch, chan, forwardConvOutputSize m s k p, forwardConvOutputSize m s k p]
        [c_in, c_out, k, k] [s, s] [1, 1] [p, p, p, p] 1 = m := by
  have key : (forwardConvOutputSize m s k p - 1) * s + 1 * (k - 1) + 1 - 2 * p = m := by
    unfold forwardConvOutputSize
    have h := Int.ediv_mul_cancel hdiv
    have e : ((m + 2 * p - k) / s + 1 - 1) * s = (m + 2 * p - k) / s * s := by ring
    rw [e, h]
    ring
  constructor
  · rw [output_size_eq]
    show toInt32 ((forwardConvOutputSize m s k p - 1) * s + 1 * (k - 1) + 1 - 2 * p) = m
    rw [key, toInt32_of_fits hfit]
  · rw [output_size_eq]
    show toInt32 ((forwardConvOutputSize m s k p - 1) * s + 1 * (k - 1) + 1 - 2 * p) = m
    rw [key, toInt32_of_fits hfit]

/-- Witness of C4 (amended): `m = 7`, `s = 2`, `k = 3`, `p = 1`. -/
theorem roundtrip_when_stride_divides_witness :
    forwardConvOutputSize 7 2 3 1 = 4 ∧
    output_size [1, 4, forwardConvOutputSize 7 2 3 1, forwardConvOutputSize 7 2 3 1]
        [4, 8, 3, 3] [2, 2] [1, 1] [1, 1, 1, 1] 0 = 7 ∧
    output_size [1, 4, forwardConvOutputSize 7 2 3 1, forwardConvOutputSize 7 2 3 1]
        [4, 8, 3, 3] [2, 2] [1, 1] [1, 1, 1, 1] 1 = 7 :=
  ⟨by decide,
   roundtrip_when_stride_divides 7 2 3 1 1 4 4 8 (by decide) (by decide) (by decide)
    (by decide) (by decide) (by decide)⟩

/-! Running the converter twice -/

/-- C5 (counterexample): the sample operator converted twice on the registry
that starts empty. The first run succeeds; the second run creates no node named
after the input `x` but creates one more node named after the filter `w`. -/
theorem second_run_adds_filter_again :
    (ConvTransposeConverter emptyGraph sampleOp floatKernel).succeeded = true ∧
    (created (ConvTransposeConverter emptyGraph sampleOp floatKernel).graph
        (ConvTransposeConverter (ConvTransposeConverter emptyGraph sampleOp floatKernel).graph
          sampleOp floatKernel).graph).filter (fun n => n.name = "x") = [] ∧
    (created (ConvTransposeConverter emptyGraph sampleOp floatKernel).graph
        (ConvTransposeConverter (ConvTransposeConverter emptyGraph sampleOp floatKernel).graph
          sampleOp floatKernel).graph).filter (fun n => n.name = "w") =
      [{ name := "w", data := .tensor { dims := [4, 8, 3, 3] } [4, 8, 3, 3] }] := by
  decide

/-- C5 (amended): after a successful conversion the input name is registered,
and a second run of the converter on the resulting registry with the same
operator creates no node named after the input, provided the input name differs
from the filter name, the output name and the descriptor name; the filter is
not looked up: the second run creates a new node for it under the filter
name. -/
theorem second_run_reuses_input_and_adds_filter (graph : Graph) (op : OpLite)
    (kernel : KernelBase)
    (hs : (ConvTransposeConverter graph op kernel).succeeded = true)
    (h1 : op.input_name ≠ op.filter_name) (h2 : op.input_name ≠ op.output_name)
    (h3 : op.input_name ≠ op.output_name ++ "/input_sizes") :
    (ConvTransposeConverter graph op kernel).graph.Has op.input_name = true ∧
    (∀ n ∈ created (ConvTransposeConverter graph op kernel).graph
        (ConvTransposeConverter (ConvTransposeConverter graph op kernel).graph op kernel).graph,
      n.name ≠ op.input_name) ∧
    ∃ filter, op.scope op.filter_name = some filter ∧
      ({ name := op.filter_name, data := .tensor filter filter.dims } : Node) ∈
        created (ConvTransposeConverter graph op kernel).graph
          (ConvTransposeConverter (ConvTransposeConverter graph op kernel).graph op kernel).graph := by
  have hhas := (succeeded_Has hs).1
  refine ⟨hhas, ?_, ?_⟩
  · intro n hmem hname
    rcases created_names _ op kernel n hmem with h | h | h | h
    · exact h3 (hname ▸ h)
    · exact h1 (hname ▸ h)
    · exact h2 (hname ▸ h)
    · rw [hname] at h
      unfold Graph.Has at hhas
      rw [h] at hhas
      cases hhas
  · obtain ⟨input0, filter0, paddings0, hv0, hp0, -⟩ := converter_run hs
    have hc0 := (checkedInputs_ok_iff op kernel input0 filter0).2 hv0
    generalize (ConvTransposeConverter graph op kernel).graph = g1
    rcases converter_outcome g1 op kernel with ⟨e, hc, -⟩ |
      ⟨input, filter, hv, ⟨hp, -⟩ | ⟨paddings, -, ⟨b, e, -, -, he⟩ | ⟨-, he⟩ | ⟨b, g2, n, -, hb, he⟩⟩⟩
    · rw [hc0] at hc; cases hc
    · rw [hp0] at hp; cases hp
    · refine ⟨filter, hv.2.2.2.2.2.2.1, ?_⟩
      rw [he]
      simp only [created, deconvStage_nodes, List.append_assoc]
      rcases inputNode_cases g1 op.input_name input with ⟨-, e1⟩ | ⟨-, -, e1⟩ <;>
        rw [e1] <;> simp
    · refine ⟨filter, hv.2.2.2.2.2.2.1, ?_⟩
      rw [he]
      simp only [created, reluStage_nodes, deconvStage_nodes, List.append_assoc]
      rcases inputNode_cases g1 op.input_name input with ⟨-, e1⟩ | ⟨-, -, e1⟩ <;>
        rw [e1] <;> simp
    · refine ⟨filter, hv.2.2.2.2.2.2.1, ?_⟩
      rw [he]
      rcases biasNode_ok hb with ⟨-, e⟩ | ⟨-, -, -, -, bias, -, -, e⟩ <;>
        rw [e] <;>
        simp only [created, reluStage_nodes, Add_nodes, deconvStage_nodes, List.append_assoc] <;>
        rcases inputNode_cases g1 op.input_name input with ⟨-, e1⟩ | ⟨-, -, e1⟩ <;>
        rw [e1] <;> simp

/-- Witness of C5 (amended): the sample operator on the empty registry. -/
theorem second_run_reuses_input_and_adds_filter_witness :
    (ConvTransposeConverter emptyGraph sampleOp floatKernel).graph.Has "x" = true ∧
    (∀ n ∈ created (ConvTransposeConverter emptyGraph sampleOp floatKernel).graph
        (ConvTransposeConverter (ConvTransposeConverter emptyGraph sampleOp floatKernel).graph
          sampleOp floatKernel).graph,
      n.name ≠ "x") ∧
    ∃ filter, sampleScope "w" = some filter ∧
      ({ name := "w", data := .tensor filter filter.dims } : Node) ∈
        created (ConvTransposeConverter emptyGraph sampleOp floatKernel).graph
          (ConvTransposeConverter (ConvTransposeConverter emptyGraph sampleOp floatKernel).graph
            sampleOp floatKernel).graph :=
  second_run_reuses_input_and_adds_filter emptyGraph sampleOp floatKernel (by decide)
    (by decide) (by decide) (by decide)

/-! The bias check -/

/-- C6 (counterexample): the sample operator has 8 output channels. With the
declared bias `c` of 3 elements and a node named `c` already registered, the
conversion succeeds and emits the add node with the registered node as second
operand; with the filter `w` (288 elements) declared as bias on the empty
registry, the name is registered by the conversion itself before the bias
branch, and the conversion succeeds as well. With an unregistered bias of 0
elements and `filter_dims[1] * groups = 2^64` the two integers differ but the
`int64_t` values compared are both 0, and the conversion succeeds. -/
theorem bias_mismatch_accepted_when_registered :
    production [3] ≠ idx [4, 8, 3, 3] 1 * 1 ∧
    toInt64 (production [3]) ≠ toInt64 (idx [4, 8, 3, 3] 1 * 1) ∧
    (ConvTransposeConverter biasGraph { sampleOp with bias_name := some "c" }
      floatKernel).succeeded = true ∧
    ({ name := "y", data := .Add 4 0 } : Node) ∈
      created biasGraph (ConvTransposeConverter biasGraph
        { sampleOp with bias_name := some "c" } floatKernel).graph ∧
    production [4, 8, 3, 3] ≠ idx [4, 8, 3, 3] 1 * 1 ∧
    toInt64 (production [4, 8, 3, 3]) ≠ toInt64 (idx [4, 8, 3, 3] 1 * 1) ∧
    (ConvTransposeConverter emptyGraph { sampleOp with bias_name := some "w" }
      floatKernel).succeeded = true ∧
    production [0] ≠ idx [4, 4611686018427387904, 3, 3] 1 * 4 ∧
    (ConvTransposeConverter emptyGraph wrapOp floatKernel).succeeded = true := by
  decide

/-- C6 (amended): when the operator declares a bias whose name is not
registered before the call and differs from the input, filter, output and
descriptor names, and the element count of the bias tensor differs from
`filter_dims[1] * groups`, both taken as the `int64_t` values that line 123
compares, the conversion fails and creates no add node. -/
theorem bias_mismatch_fails_when_unregistered (graph : Graph) (op : OpLite)
    (kernel : KernelBase) (b : String)
    (hb : op.bias_name = some b) (hreg : graph.Has b = false)
    (h1 : b ≠ op.input_name) (h2 : b ≠ op.filter_name) (h3 : b ≠ op.output_name)
    (h4 : b ≠ op.output_name ++ "/input_sizes")
    (hm : ∀ bias filter, op.scope b = some bias → op.scope op.filter_name = some filter →
      toInt64 (production bias.dims) ≠ toInt64 (idx filter.dims 1 * op.groups)) :
    (ConvTransposeConverter graph op kernel).failed = true ∧
    ∀ n ∈ created graph (ConvTransposeConverter graph op kernel).graph,
      n.data.isAdd = false := by
  have hget : graph.Get b = none := by
    unfold Graph.Has at hreg
    cases h : graph.Get b with
    | none => rfl
    | some x => rw [h] at hreg; cases hreg
  rcases converter_outcome graph op kernel with ⟨e, -, he⟩ |
    ⟨input, filter, hv, ⟨-, he⟩ | ⟨paddings, -, ⟨b1, e, -, -, he⟩ | ⟨hn, -⟩ | ⟨b1, g1, n, hb1, hbn, -⟩⟩⟩
  · rw [he]
    exact ⟨rfl, by simp [created]⟩
  · rw [he]
    refine ⟨rfl, ?_⟩
    rcases inputNode_cases graph op.input_name input with ⟨-, e1⟩ | ⟨-, -, e1⟩ <;>
      rw [e1] <;> simp [created, NodeData.isAdd]
  · rw [he]
    refine ⟨rfl, ?_⟩
    simp only [created, deconvStage_nodes, List.append_assoc]
    rcases inputNode_cases graph op.input_name input with ⟨-, e1⟩ | ⟨-, -, e1⟩ <;>
      rw [e1] <;> simp [NodeData.isAdd]
  · rw [hn] at hb; cases hb
  · rw [hb] at hb1
    cases hb1
    have hstage := (stage_Get_none_iff graph op input filter
      (inputNode graph op.input_name input).2 paddings b).2 ⟨hget, h1, h2, h3, h4⟩
    obtain ⟨e, he⟩ := biasNode_error_of_mismatch kernel filter.dims
      hstage (fun bias hbias => hm bias filter hbias hv.2.2.2.2.2.2.1)
    rw [he] at hbn
    cases hbn

/-- Witness of C6 (amended): the 3-element bias `c` on the empty registry. -/
theorem bias_mismatch_fails_when_unregistered_witness :
    (ConvTransposeConverter emptyGraph { sampleOp with bias_name := some "c" }
      floatKernel).failed = true ∧
    ∀ n ∈ created emptyGraph (ConvTransposeConverter emptyGraph
        { sampleOp with bias_name := some "c" } floatKernel).graph,
      n.data.isAdd = false :=
  bias_mismatch_fails_when_unregistered emptyGraph { sampleOp with bias_name := some "c" }
    floatKernel "c" rfl (by decide) (by decide) (by decide) (by decide) (by decide)
    (by
      intro bias filter hbias hfilter
      have e1 : bias = { dims := [3] } := (Option.some.inj hbias).symm
      have e2 : filter = { dims := [4, 8, 3, 3] } := (Option.some.inj hfilter).symm
      subst e1
      subst e2
      decide)

/-! The emitted chain -/

/-- C7: a successful conversion creates exactly one deconvolution node, at a
position `d`; it creates an add node exactly when a bias is declared, its
first operand being `d` and its second operand the node registered under the
bias name; it creates an activation node with mode `relu` exactly when
`fuse_relu` is present and true, its operand being the position `t` of the add
node when a bias is declared and `d` otherwise. The last node created is the
activation node when there is one and the node at `t` otherwise. -/
theorem emitted_chain_shape (graph : Graph) (op : OpLite) (kernel : KernelBase)
    (hs : (ConvTransposeConverter graph op kernel).succeeded = true) :
    ∃ (d t : Nat) (dc : Deconvolution),
      graph.nodes.length ≤ d ∧
      (ConvTransposeConverter graph op kernel).graph.nodes[d]? =
        some { name := op.output_name, data := .Deconvolution dc } ∧
      (created graph (ConvTransposeConverter graph op kernel).graph).filter
          (fun n => n.data.isDeconvolution) =
        [{ name := op.output_name, data := .Deconvolution dc }] ∧
      ((op.bias_name = none ∧ t = d ∧
        (created graph (ConvTransposeConverter graph op kernel).graph).filter
          (fun n => n.data.isAdd) = []) ∨
       (∃ b n, op.bias_name = some b ∧ d < t ∧
        (ConvTransposeConverter graph op kernel).graph.nodes[t]? =
          some { name := op.output_name, data := .Add d n } ∧
        (created graph (ConvTransposeConverter graph op kernel).graph).filter
          (fun n => n.data.isAdd) = [{ name := op.output_name, data := .Add d n }] ∧
        (b ≠ op.output_name →
          (ConvTransposeConverter graph op kernel).graph.Get b = some n) ∧
        (b = op.output_name → n = d))) ∧
      ((op.fuse_relu = some true ∧
        (created graph (ConvTransposeConverter graph op kernel).graph).filter
          (fun n => n.data.isActivation) =
            [{ name := op.output_name, data := .Activation t "relu" }] ∧
        (created graph (ConvTransposeConverter graph op kernel).graph).getLast? =
          some { name := op.output_name, data := .Activation t "relu" }) ∨
       (op.fuse_relu ≠ some true ∧
        (created graph (ConvTransposeConverter graph op kernel).graph).filter
          (fun n => n.data.isActivation) = [] ∧
        (created graph (ConvTransposeConverter graph op kernel).graph).getLast? =
          (ConvTransposeConverter graph op kernel).graph.nodes[t]?)) := by
  obtain ⟨input, filter, paddings, pre, mid, x, hv, hnp, hpre, hmid, hnodes, hsz⟩ :=
    converter_nodes hs
  have hcr : created graph (ConvTransposeConverter graph op kernel).graph =
      pre ++
        ([{ name := op.output_name ++ "/input_sizes",
             data := .constInt
              (input_sizes input.dims filter.dims op.strides op.dilations paddings op.groups) },
           { name := op.filter_name, data := .tensor filter filter.dims },
           { name := op.output_name,
             data := .Deconvolution (deconvolution op filter.dims paddings
              (graph.nodes.length + pre.length) (graph.nodes.length + pre.length + 1) x) }] ++
          (mid ++
          (if op.fuse_relu = some true then
            [{ name := op.output_name,
               data := .Activation (graph.nodes.length + pre.length + 2 + mid.length) "relu" }]
           else []))) := by
    simp only [created, hnodes, List.append_assoc, List.drop_left]
  have hpre_t : ∀ n ∈ pre, n.data.isDeconvolution = false ∧ n.data.isAdd = false ∧
      n.data.isActivation = false := by
    rcases hpre with ⟨-, rfl⟩ | ⟨-, -, rfl⟩ <;> simp [NodeData.isDeconvolution, NodeData.isAdd,
      NodeData.isActivation]
  have hfd : pre.filter (fun n => n.data.isDeconvolution) = [] :=
    List.filter_eq_nil_iff.2 (fun n hn => by simp [(hpre_t n hn).1])
  have hfa : pre.filter (fun n => n.data.isAdd) = [] :=
    List.filter_eq_nil_iff.2 (fun n hn => by simp [(hpre_t n hn).2.1])
  have hfr : pre.filter (fun n => n.data.isActivation) = [] :=
    List.filter_eq_nil_iff.2 (fun n hn => by simp [(hpre_t n hn).2.2])
  refine ⟨graph.nodes.length + pre.length + 2, graph.nodes.length + pre.length + 2 + mid.length,
    deconvolution op filter.dims paddings (graph.nodes.length + pre.length)
      (graph.nodes.length + pre.length + 1) x, by omega, ?_, ?_, ?_, ?_⟩
  · rw [hnodes]
    simp only [List.append_assoc]
    rw [← List.append_assoc, getElem?_shift _ _ _ _ 2 rfl]
    simp
  · rw [hcr, List.filter_append, hfd]
    rcases hmid with ⟨-, rfl⟩ | ⟨b, n, -, -, rfl, -⟩ | ⟨b, bias, -, -, -, -, -, -, rfl, -⟩ <;>
      by_cases hr : op.fuse_relu = some true <;>
      simp [hr, NodeData.isDeconvolution]
  · rcases hmid with ⟨hb, rfl⟩ | ⟨b, n, hb, hget, rfl, hfin⟩ |
      ⟨b, bias, hb, hget, -, -, -, -, rfl, hfin⟩
    · left
      refine ⟨hb, rfl, ?_⟩
      rw [hcr, List.filter_append, hfa]
      by_cases hr : op.fuse_relu = some true <;> simp [hr, NodeData.isAdd]
    · right
      refine ⟨b, n, hb, by simp, ?_, ?_, hfin, ?_⟩
      · rw [hnodes]
        simp only [List.append_assoc]
        rw [← List.append_assoc, getElem?_shift _ _ _ _ 3 (by simp)]
        simp
      · rw [hcr, List.filter_append, hfa]
        by_cases hr : op.fuse_relu = some true <;> simp [hr, NodeData.isAdd]
      · intro hbo
        rw [deconvStage_Get, if_pos hbo] at hget
        have hlen : (inputNode graph op.input_name input).1.nodes.length =
            graph.nodes.length + pre.length := by
          rcases hpre with ⟨hg, rfl⟩ | ⟨hg, -, rfl⟩ <;> simp [inputNode, hg]
        rw [hlen] at hget
        exact (Option.some.inj hget).symm
    · right
      have hne : b ≠ op.output_name :=
        ((stage_Get_none_iff graph op input filter x paddings b).1 hget).2.2.2.1
      refine ⟨b, graph.nodes.length + pre.length + 3, hb, by simp, ?_, ?_,
        fun _ => hfin, fun h => absurd h hne⟩
      · rw [hnodes]
        simp only [List.append_assoc]
        rw [← List.append_assoc, getElem?_shift _ _ _ _ 4 (by simp)]
        simp
      · rw [hcr, List.filter_append, hfa]
        by_cases hr : op.fuse_relu = some true <;> simp [hr, NodeData.isAdd]
  · by_cases hr : op.fuse_relu = some true
    · left
      refine ⟨hr, ?_, ?_⟩
      · rw [hcr, List.filter_append, hfr]
        rcases hmid with ⟨-, rfl⟩ | ⟨b, n, -, -, rfl, -⟩ | ⟨b, bias, -, -, -, -, -, -, rfl, -⟩ <;>
          simp [hr, NodeData.isActivation]
      · rw [hcr]
        simp only [hr, if_true]
        rw [← List.append_assoc, ← List.append_assoc]
        exact List.getLast?_concat _
    · right
      refine ⟨hr, ?_, ?_⟩
      · rw [hcr, List.filter_append, hfr]
        rcases hmid with ⟨-, rfl⟩ | ⟨b, n, -, -, rfl, -⟩ | ⟨b, bias, -, -, -, -, -, -, rfl, -⟩ <;>
          simp [hr, NodeData.isActivation]
      · rw [hcr, hnodes]
        simp only [List.append_assoc]
        rw [← List.append_assoc graph.nodes]
        rcases hmid with ⟨-, rfl⟩ | ⟨b, n, -, -, rfl, -⟩ | ⟨b, bias, -, -, -, -, -, -, rfl, -⟩
        · rw [getElem?_shift _ _ _ _ 2 (by simp)]
          simp [hr, List.getLast?_append]
        · rw [getElem?_shift _ _ _ _ 3 (by simp)]
          simp [hr, List.getLast?_append]
        · rw [getElem?_shift _ _ _ _ 4 (by simp)]
          simp [hr, List.getLast?_append]

/-- Witness of C7: the sample operator with bias and fused activation on the
empty registry creates `x`, the descriptor, `w`, the deconvolution node at 3,
`b`, the add node at 5 and the activation node. -/
theorem emitted_chain_shape_witness :
    (ConvTransposeConverter emptyGraph fusedOp floatKernel).succeeded = true ∧
    created emptyGraph (ConvTransposeConverter emptyGraph fusedOp floatKernel).graph =
      [{ name := "x", data := .tensor { dims := [1, 4, 8, 8] } [1, 4, 8, 8] },
       { name := "y/input_sizes", data := .constInt [1, 8, 15, 15] },
       { name := "w", data := .tensor { dims := [4, 8, 3, 3] } [4, 8, 3, 3] },
       { name := "y", data := .Deconvolution (deconvolution fusedOp [4, 8, 3, 3] [1, 1, 1, 1] 1 2 0) },
       { name := "b", data := .tensor { dims := [8] } [1, 8, 1, 1] },
       { name := "y", data := .Add 3 4 },
       { name := "y", data := .Activation 5 "relu" }] ∧
    ∃ (d t : Nat) (dc : Deconvolution),
      emptyGraph.nodes.length ≤ d ∧
      (ConvTransposeConverter emptyGraph fusedOp floatKernel).graph.nodes[d]? =
        some { name := fusedOp.output_name, data := .Deconvolution dc } ∧
      (created emptyGraph (ConvTransposeConverter emptyGraph fusedOp floatKernel).graph).filter
          (fun n => n.data.isDeconvolution) =
        [{ name := fusedOp.output_name, data := .Deconvolution dc }] ∧
      ((fusedOp.bias_name = none ∧ t = d ∧
        (created emptyGraph (ConvTransposeConverter emptyGraph fusedOp floatKernel).graph).filter
          (fun n => n.data.isAdd) = []) ∨
       (∃ b n, fusedOp.bias_name = some b ∧ d < t ∧
        (ConvTransposeConverter emptyGraph fusedOp floatKernel).graph.nodes[t]? =
          some { name := fusedOp.output_name, data := .Add d n } ∧
        (created emptyGraph (ConvTransposeConverter emptyGraph fusedOp floatKernel).graph).filter
          (fun n => n.data.isAdd) = [{ name := fusedOp.output_name, data := .Add d n }] ∧
        (b ≠ fusedOp.output_name →
          (ConvTransposeConverter emptyGraph fusedOp floatKernel).graph.Get b = some n) ∧
        (b = fusedOp.output_name → n = d))) ∧
      ((fusedOp.fuse_relu = some true ∧
        (created emptyGraph (ConvTransposeConverter emptyGraph fusedOp floatKernel).graph).filter
          (fun n => n.data.isActivation) =
            [{ name := fusedOp.output_name, data := .Activation t "relu" }] ∧
        (created emptyGraph
            (ConvTransposeConverter emptyGraph fusedOp floatKernel).graph).getLast? =
          some { name := fusedOp.output_name, data := .Activation t "relu" }) ∨
       (fusedOp.fuse_relu ≠ some true ∧
        (created emptyGraph (ConvTransposeConverter emptyGraph fusedOp floatKernel).graph).filter
          (fun n => n.data.isActivation) = [] ∧
        (created emptyGraph
            (ConvTransposeConverter emptyGraph fusedOp floatKernel).graph).getLast? =
          (ConvTransposeConverter emptyGraph fusedOp floatKernel).graph.nodes[t]?)) :=
  ⟨by decide, by decide, emitted_chain_shape emptyGraph fusedOp floatKernel (by decide)⟩

/-- C8: in a successful conversion the deconvolution node has the descriptor
node, the filter node and the input node as operands (the input node being the
node registered under the input name before the call, or the one created from
the input tensor), and the attributes `format = 0`, `pad_mode = 0`,
`group = groups`, `pad` the normalised 4-element padding (the attribute itself
when it has 4 elements), `dilation = [dilations[0], dilations[1]]`,
`stride = [strides[0], strides[1]]` and
`kernel = [filter_dims[2], filter_dims[3]]`. -/
theorem deconvolution_node_binding (graph : Graph) (op : OpLite) (kernel : KernelBase)
    (hs : (ConvTransposeConverter graph op kernel).succeeded = true) :
    ∃ (input filter : Tensor) (paddings : List Int) (d : Nat) (dc : Deconvolution),
      op.scope op.input_name = some input ∧ op.scope op.filter_name = some filter ∧
      normalizePaddings op.paddings = some paddings ∧
      (ConvTransposeConverter graph op kernel).graph.nodes[d]? =
        some { name := op.output_name, data := .Deconvolution dc } ∧
      (created graph (ConvTransposeConverter graph op kernel).graph).filter
          (fun n => n.data.isDeconvolution) =
        [{ name := op.output_name, data := .Deconvolution dc }] ∧
      (ConvTransposeConverter graph op kernel).graph.nodes[dc.input_sizes]? =
        some { name := op.output_name ++ "/input_sizes",
               data := .constInt (input_sizes input.dims filter.dims op.strides op.dilations
                paddings op.groups) } ∧
      (ConvTransposeConverter graph op kernel).graph.nodes[dc.filter]? =
        some { name := op.filter_name, data := .tensor filter filter.dims } ∧
      (graph.Get op.input_name = some dc.x ∨
       (graph.Get op.input_name = none ∧ dc.x = graph.nodes.length ∧
        (ConvTransposeConverter graph op kernel).graph.nodes[dc.x]? =
          some { name := op.input_name, data := .tensor input input.dims })) ∧
      dc.format = 0 ∧ dc.pad_mode = 0 ∧ dc.group = op.groups ∧
      dc.pad = paddings ∧ (op.paddings.length = 4 → dc.pad = op.paddings) ∧
      dc.dilation = [idx op.dilations 0, idx op.dilations 1] ∧
      dc.stride = [idx op.strides 0, idx op.strides 1] ∧
      dc.kernel = [idx filter.dims 2, idx filter.dims 3] := by
  obtain ⟨input, filter, paddings, pre, mid, x, hv, hnp, hpre, hmid, hnodes, hsz⟩ :=
    converter_nodes hs
  have hplen := normalizePaddings_length hnp
  have hnodes2 : (ConvTransposeConverter graph op kernel).graph.nodes =
      graph.nodes ++ pre ++
        ([{ name := op.output_name ++ "/input_sizes",
             data := .constInt
              (input_sizes input.dims filter.dims op.strides op.dilations paddings op.groups) },
           { name := op.filter_name, data := .tensor filter filter.dims },
           { name := op.output_name,
             data := .Deconvolution (deconvolution op filter.dims paddings
              (graph.nodes.length + pre.length) (graph.nodes.length + pre.length + 1) x) }] ++
          (mid ++
          (if op.fuse_relu = some true then
            [{ name := op.output_name,
               data := .Activation (graph.nodes.length + pre.length + 2 + mid.length) "relu" }]
           else []))) := by
    rw [hnodes]
    simp only [List.append_assoc]
  have hcr : created graph (ConvTransposeConverter graph op kernel).graph =
      pre ++
        ([{ name := op.output_name ++ "/input_sizes",
             data := .constInt
              (input_sizes input.dims filter.dims op.strides op.dilations paddings op.groups) },
           { name := op.filter_name, data := .tensor filter filter.dims },
           { name := op.output_name,
             data := .Deconvolution (deconvolution op filter.dims paddings
              (graph.nodes.length + pre.length) (graph.nodes.length + pre.length + 1) x) }] ++
          (mid ++
          (if op.fuse_relu = some true then
            [{ name := op.output_name,
               data := .Activation (graph.nodes.length + pre.length + 2 + mid.length) "relu" }]
           else []))) := by
    simp only [created, hnodes, List.append_assoc, List.drop_left]
  have hfd : pre.filter (fun n => n.data.isDeconvolution) = [] := by
    rcases hpre with ⟨-, rfl⟩ | ⟨-, -, rfl⟩ <;> simp [NodeData.isDeconvolution]
  refine ⟨input, filter, paddings, graph.nodes.length + pre.length + 2,
    deconvolution op filter.dims paddings (graph.nodes.length + pre.length)
      (graph.nodes.length + pre.length + 1) x,
    hv.2.2.1, hv.2.2.2.2.2.2.1, hnp, ?_, ?_, ?_, ?_, ?_, rfl, rfl, rfl, ?_, ?_, rfl, rfl, rfl⟩
  · rw [hnodes2, getElem?_shift _ _ _ _ 2 rfl]
    simp
  · rw [hcr, List.filter_append, hfd]
    rcases hmid with ⟨-, rfl⟩ | ⟨b, n, -, -, rfl, -⟩ | ⟨b, bias, -, -, -, -, -, -, rfl, -⟩ <;>
      by_cases hr : op.fuse_relu = some true <;>
      simp [hr, NodeData.isDeconvolution]
  · show (ConvTransposeConverter graph op kernel).graph.nodes[graph.nodes.length + pre.length]? = _
    rw [hnodes2, getElem?_shift _ _ _ _ 0 (by simp)]
    simp
  · show (ConvTransposeConverter graph op kernel).graph.nodes[
      graph.nodes.length + pre.length + 1]? = _
    rw [hnodes2, getElem?_shift _ _ _ _ 1 rfl]
    simp
  · show graph.Get op.input_name = some x ∨ (graph.Get op.input_name = none ∧
      x = graph.nodes.length ∧ (ConvTransposeConverter graph op kernel).graph.nodes[x]? = _)
    rcases hpre with ⟨hg, -⟩ | ⟨hg, hx, hp⟩
    · exact Or.inl hg
    · refine Or.inr ⟨hg, hx, ?_⟩
      rw [hnodes2, hp, List.append_assoc, hx,
        List.getElem?_append_right (Nat.le_refl _)]
      simp
  · exact quad_eq_self hplen
  · intro h4
    rw [normalizePaddings_quad h4] at hnp
    rw [Option.some.inj hnp]
    exact quad_eq_self hplen


/-- Witness of C8: the sample operator with paddings `[1, 0, 1, 0]` on the
empty registry; the deconvolution node is created at position 3 with operands
1, 2, 0 and `pad = [1, 0, 1, 0]`. -/
theorem deconvolution_node_binding_witness :
    (ConvTransposeConverter emptyGraph paddedOp floatKernel).graph.nodes[3]? =
      some { name := "y",
             data := .Deconvolution
              { input_sizes := 1, filter := 2, x := 0, format := 0, pad_mode := 0, group := 1,
                pad := [1, 0, 1, 0], dilation := [1, 1], stride := [2, 2], kernel := [3, 3] } } ∧
    ∃ (input filter : Tensor) (paddings : List Int) (d : Nat) (dc : Deconvolution),
      paddedOp.scope paddedOp.input_name = some input ∧
      paddedOp.scope paddedOp.filter_name = some filter ∧
      normalizePaddings paddedOp.paddings = some paddings ∧
      (ConvTransposeConverter emptyGraph paddedOp floatKernel).graph.nodes[d]? =
        some { name := paddedOp.output_name, data := .Deconvolution dc } ∧
      (created emptyGraph (ConvTransposeConverter emptyGraph paddedOp floatKernel).graph).filter
          (fun n => n.data.isDeconvolution) =
        [{ name := paddedOp.output_name, data := .Deconvolution dc }] ∧
      (ConvTransposeConverter emptyGraph paddedOp floatKernel).graph.nodes[dc.input_sizes]? =
        some { name := paddedOp.output_name ++ "/input_sizes",
               data := .constInt (input_sizes input.dims filter.dims paddedOp.strides
                paddedOp.dilations paddings paddedOp.groups) } ∧
      (ConvTransposeConverter emptyGraph paddedOp floatKernel).graph.nodes[dc.filter]? =
        some { name := paddedOp.filter_name, data := .tensor filter filter.dims } ∧
      (emptyGraph.Get paddedOp.input_name = some dc.x ∨
       (emptyGraph.Get paddedOp.input_name = none ∧ dc.x = emptyGraph.nodes.length ∧
        (ConvTransposeConverter emptyGraph paddedOp floatKernel).graph.nodes[dc.x]? =
          some { name := paddedOp.input_name, data := .tensor input input.dims })) ∧
      dc.format = 0 ∧ dc.pad_mode = 0 ∧ dc.group = paddedOp.groups ∧
      dc.pad = paddings ∧ (paddedOp.paddings.length = 4 → dc.pad = paddedOp.paddings) ∧
      dc.dilation = [idx paddedOp.dilations 0, idx paddedOp.dilations 1] ∧
      dc.stride = [idx paddedOp.strides 0, idx paddedOp.strides 1] ∧
      dc.kernel = [idx filter.dims 2, idx filter.dims 3] :=
  ⟨by decide, deconvolution_node_binding emptyGraph paddedOp floatKernel (by decide)⟩

/-! Preconditions and return value -/

/-- C9: the conversion fails when the input shape or the filter shape does not
have exactly 4 dimensions (a tensor missing from the scope has no shape), when
`strides` or `dilations` does not have exactly 2 elements, or when the declared
type of `Input`, `Filter` or `Output` is not float, channel-first. -/
theorem hard_preconditions (graph : Graph) (op : OpLite) (kernel : KernelBase)
    (h : (∀ input, op.scope op.input_name = some input → input.dims.length ≠ 4) ∨
         (∀ filter, op.scope op.filter_name = some filter → filter.dims.length ≠ 4) ∨
         op.strides.length ≠ 2 ∨ op.dilations.length ≠ 2 ∨
         kernel.GetInputDeclType "Input" ≠ { precision := .kFloat, layout := .kNCHW } ∨
         kernel.GetInputDeclType "Filter" ≠ { precision := .kFloat, layout := .kNCHW } ∨
         kernel.GetOutputDeclType "Output" ≠ { precision := .kFloat, layout := .kNCHW }) :
    (ConvTransposeConverter graph op kernel).failed = true := by
  rcases succeeded_or_failed (ConvTransposeConverter graph op kernel) with hs | hf
  · exfalso
    obtain ⟨input, filter, paddings, hv, -, -⟩ := converter_run hs
    obtain ⟨v1, v2, v3, v4, v5, v6, v7, v8, v9, v10, v11, v12⟩ := hv
    rcases h with h | h | h | h | h | h | h
    · exact h input v3 v4
    · exact h filter v7 v8
    · exact h v11
    · exact h v12
    · exact h (declType_eq v1 v2)
    · exact h (declType_eq v5 v6)
    · exact h (declType_eq v9 v10)
  · exact hf


/-- Witness of C9: an input of rank 3, a `strides` attribute of 3 elements and
a filter declared as 8-bit integers each make the conversion fail. -/
theorem hard_preconditions_witness :
    (ConvTransposeConverter emptyGraph rank3Op floatKernel).failed = true ∧
    (ConvTransposeConverter emptyGraph { sampleOp with strides := [2, 2, 2] }
      floatKernel).failed = true ∧
    (ConvTransposeConverter emptyGraph sampleOp int8FilterKernel).failed = true :=
  ⟨hard_preconditions emptyGraph rank3Op floatKernel
      (Or.inl (by
        intro input hin
        have e : input = { dims := [4, 8, 8] } := (Option.some.inj hin).symm
        subst e
        decide)),
   hard_preconditions emptyGraph { sampleOp with strides := [2, 2, 2] } floatKernel
      (Or.inr (Or.inr (Or.inl (by decide)))),
   hard_preconditions emptyGraph sampleOp int8FilterKernel
      (Or.inr (Or.inr (Or.inr (Or.inr (Or.inr (Or.inl (by decide)))))))⟩

/-- C10: when the declared types of `Input`, `Filter` and `Output` are float,
channel-first, the input and the filter shape have 4 dimensions, `strides` and
`dilations` have 2 elements, `paddings` has 2 or 4 elements, and the bias, if
one is declared, is declared float, channel-first and has
`filter_dims[1] * groups` elements, the conversion does not fail and returns
`REBUILD_WHEN_SHAPE_CHANGED`, whatever the registry is and whether or not a
bias or `fuse_relu` is present. -/
theorem conversion_returns_rebuild_hint (graph : Graph) (op : OpLite) (kernel : KernelBase)
    (input filter : Tensor)
    (hv : inputsValid op kernel input filter)
    (hp : op.paddings.length = 2 ∨ op.paddings.length = 4)
    (hb : ∀ b, op.bias_name = some b →
      kernel.GetInputDeclType "Bias" = { precision := .kFloat, layout := .kNCHW } ∧
      ∃ bias, op.scope b = some bias ∧
        production bias.dims = idx filter.dims 1 * op.groups) :
    (ConvTransposeConverter graph op kernel).status = .ok .REBUILD_WHEN_SHAPE_CHANGED := by
  have hc := (checkedInputs_ok_iff op kernel input filter).2 hv
  obtain ⟨q, hq⟩ := normalizePaddings_isSome hp
  rcases converter_outcome graph op kernel with ⟨e, hce, -⟩ |
    ⟨input1, filter1, hv1, ⟨hn, -⟩ | ⟨paddings, -, ⟨b, e, hbn, hbe, -⟩ | ⟨-, he⟩ | ⟨b, g1, n, -, -, he⟩⟩⟩
  · rw [hc] at hce; cases hce
  · rw [hq] at hn; cases hn
  · exfalso
    have hf : filter1 = filter := by
      have h1 := hv1.2.2.2.2.2.2.1
      rw [hv.2.2.2.2.2.2.1] at h1
      exact (Option.some.inj h1).symm
    subst hf
    obtain ⟨ht, hbias⟩ := hb b hbn
    obtain ⟨r, hr⟩ := biasNode_ok_of_valid
      (deconvStage (inputNode graph op.input_name input1).1 op input1 filter1
        (inputNode graph op.input_name input1).2 paddings).1 op ht hbias
    rw [hr] at hbe
    cases hbe
  · rw [he]; exact reluStage_status _ _ _
  · rw [he]; exact reluStage_status _ _ _

/-- Witness of C10: the sample operator with the 8-element bias and
`fuse_relu` set, and the sample operator without either. -/
theorem conversion_returns_rebuild_hint_witness :
    (ConvTransposeConverter emptyGraph fusedOp floatKernel).status =
      .ok .REBUILD_WHEN_SHAPE_CHANGED ∧
    (ConvTransposeConverter emptyGraph sampleOp floatKernel).status =
      .ok .REBUILD_WHEN_SHAPE_CHANGED :=
  ⟨conversion_returns_rebuild_hint emptyGraph fusedOp floatKernel
      { dims := [1, 4, 8, 8] } { dims := [4, 8, 3, 3] }
      ⟨rfl, rfl, rfl, rfl, rfl, rfl, rfl, rfl, rfl, rfl, rfl, rfl⟩ (Or.inl rfl)
      (by
        intro b hb
        have e : b = "b" := (Option.some.inj hb).symm
        subst e
        exact ⟨rfl, { dims := [8] }, rfl, by decide⟩),
   conversion_returns_rebuild_hint emptyGraph sampleOp floatKernel
      { dims := [1, 4, 8, 8] } { dims := [4, 8, 3, 3] }
      ⟨rfl, rfl, rfl, rfl, rfl, rfl, rfl, rfl, rfl, rfl, rfl, rfl⟩ (Or.inl rfl)
      (by
        intro b hb
        cases hb)⟩

/-! The shared output name and the bias node -/

/-- C11: in a successful conversion the operator nodes created are, in this
order, the deconvolution node, the add node when a bias is declared and the
activation node when `fuse_relu` is set, all of them named after the output;
after the call the registry holds under the output name the last of them:
the activation node if fused, else the add node if a bias is declared, else
the deconvolution node. -/
theorem output_name_resolves_to_chain_terminal (graph : Graph) (op : OpLite)
    (kernel : KernelBase)
    (hs : (ConvTransposeConverter graph op kernel).succeeded = true) :
    ∃ (d a r : NodeData) (node : Nat),
      d.isDeconvolution = true ∧ a.isAdd = true ∧ r.isActivation = true ∧
      (created graph (ConvTransposeConverter graph op kernel).graph).filter
          (fun n => n.data.isChain) =
        [{ name := op.output_name, data := d }] ++
        (if op.bias_name.isSome then [{ name := op.output_name, data := a }] else []) ++
        (if op.fuse_relu = some true then [{ name := op.output_name, data := r }] else []) ∧
      (ConvTransposeConverter graph op kernel).graph.Get op.output_name = some node ∧
      (ConvTransposeConverter graph op kernel).graph.nodes[node]? =
        some { name := op.output_name,
               data := if op.fuse_relu = some true then r
                       else if op.bias_name.isSome then a else d } := by
  obtain ⟨input, filter, paddings, pre, mid, x, hv, hnp, hpre, hmid, hnodes, -⟩ :=
    converter_nodes hs
  have hget := succeeded_Get_output hs
  have hfp : pre.filter (fun n => n.data.isChain) = [] := by
    rcases hpre with ⟨-, rfl⟩ | ⟨-, -, rfl⟩ <;>
      simp [NodeData.isChain, NodeData.isDeconvolution, NodeData.isAdd, NodeData.isActivation]
  have hcr : created graph (ConvTransposeConverter graph op kernel).graph =
      pre ++
        ([{ name := op.output_name ++ "/input_sizes",
             data := .constInt
              (input_sizes input.dims filter.dims op.strides op.dilations paddings op.groups) },
           { name := op.filter_name, data := .tensor filter filter.dims },
           { name := op.output_name,
             data := .Deconvolution (deconvolution op filter.dims paddings
              (graph.nodes.length + pre.length) (graph.nodes.length + pre.length + 1) x) }] ++
          (mid ++
          (if op.fuse_relu = some true then
            [{ name := op.output_name,
               data := .Activation (graph.nodes.length + pre.length + 2 + mid.length) "relu" }]
           else []))) := by
    simp only [created, hnodes, List.append_assoc, List.drop_left]
  have hlast : ∀ l : List Node, l[l.length - 1]? = l.getLast? :=
    fun l => (List.getLast?_eq_getElem? l).symm
  rcases hmid with ⟨hb, rfl⟩ | ⟨b, n, hb, -, rfl, -⟩ | ⟨b, bias, hb, -, -, -, -, -, rfl, -⟩
  · refine ⟨.Deconvolution (deconvolution op filter.dims paddings
        (graph.nodes.length + pre.length) (graph.nodes.length + pre.length + 1) x),
      .Add 0 0, .Activation (graph.nodes.length + pre.length + 2) "relu", _,
      rfl, rfl, rfl, ?_, hget, ?_⟩
    · rw [hcr, List.filter_append, hfp]
      by_cases hr : op.fuse_relu = some true <;>
        simp [hb, hr, NodeData.isChain, NodeData.isDeconvolution, NodeData.isAdd,
          NodeData.isActivation]
    · rw [hlast, hnodes]
      by_cases hr : op.fuse_relu = some true <;>
        simp [hb, hr, List.getLast?_append]
  · refine ⟨.Deconvolution (deconvolution op filter.dims paddings
        (graph.nodes.length + pre.length) (graph.nodes.length + pre.length + 1) x),
      .Add (graph.nodes.length + pre.length + 2) n,
      .Activation (graph.nodes.length + pre.length + 2 + 1) "relu", _,
      rfl, rfl, rfl, ?_, hget, ?_⟩
    · rw [hcr, List.filter_append, hfp]
      by_cases hr : op.fuse_relu = some true <;>
        simp [hb, hr, NodeData.isChain, NodeData.isDeconvolution, NodeData.isAdd,
          NodeData.isActivation]
    · rw [hlast, hnodes]
      by_cases hr : op.fuse_relu = some true <;>
        simp [hb, hr, List.getLast?_append]
  · refine ⟨.Deconvolution (deconvolution op filter.dims paddings
        (graph.nodes.length + pre.length) (graph.nodes.length + pre.length + 1) x),
      .Add (graph.nodes.length + pre.length + 2) (graph.nodes.length + pre.length + 3),
      .Activation (graph.nodes.length + pre.length + 2 + 2) "relu", _,
      rfl, rfl, rfl, ?_, hget, ?_⟩
    · rw [hcr, List.filter_append, hfp]
      by_cases hr : op.fuse_relu = some true <;>
        simp [hb, hr, NodeData.isChain, NodeData.isDeconvolution, NodeData.isAdd,
          NodeData.isActivation]
    · rw [hlast, hnodes]
      by_cases hr : op.fuse_relu = some true <;>
        simp [hb, hr, List.getLast?_append]

/-- Witness of C11: for the sample operator with bias and fused activation the
output name `y` resolves to node 6, the activation node. -/
theorem output_name_resolves_to_chain_terminal_witness :
    (ConvTransposeConverter emptyGraph fusedOp floatKernel).graph.Get "y" = some 6 ∧
    (ConvTransposeConverter emptyGraph fusedOp floatKernel).graph.nodes[6]? =
      some { name := "y", data := .Activation 5 "relu" } ∧
    ∃ (d a r : NodeData) (node : Nat),
      d.isDeconvolution = true ∧ a.isAdd = true ∧ r.isActivation = true ∧
      (created emptyGraph (ConvTransposeConverter emptyGraph fusedOp floatKernel).graph).filter
          (fun n => n.data.isChain) =
        [{ name := fusedOp.output_name, data := d }] ++
        (if fusedOp.bias_name.isSome then [{ name := fusedOp.output_name, data := a }]
          else []) ++
        (if fusedOp.fuse_relu = some true then [{ name := fusedOp.output_name, data := r }]
          else []) ∧
      (ConvTransposeConverter emptyGraph fusedOp floatKernel).graph.Get fusedOp.output_name =
        some node ∧
      (ConvTransposeConverter emptyGraph fusedOp floatKernel).graph.nodes[node]? =
        some { name := fusedOp.output_name,
               data := if fusedOp.fuse_relu = some true then r
                       else if fusedOp.bias_name.isSome then a else d } :=
  ⟨by decide, by decide,
   output_name_resolves_to_chain_terminal emptyGraph fusedOp floatKernel (by decide)⟩

/-- C12: in a successful conversion with a declared bias `b` there is exactly
one add node. If `b` is not registered when the bias branch is reached (not
registered before the call and different from the input, filter, output and
descriptor names), the element count `C` of the bias tensor and
`filter_dims[1] * groups` are equal as the `int64_t` values line 123 compares,
and the second operand of the add node is a node created from the bias tensor
under the name `b` with shape `[1, C, 1, 1]`; when the element count and
`filter_dims[1] * groups` are `int64_t` values, they are equal and `C` is the
element count itself. Otherwise no bias node is created (the only tensor nodes
created are the input node, if the input name was not registered, and the
filter node) and the second operand is the node registered under `b`: the node
registered before the call, unless the conversion itself registered `b` as
filter, output or descriptor name. -/
theorem bias_node_resolution (graph : Graph) (op : OpLite) (kernel : KernelBase) (b : String)
    (hs : (ConvTransposeConverter graph op kernel).succeeded = true)
    (hb : op.bias_name = some b) :
    ∃ (input filter : Tensor) (d n : Nat),
      op.scope op.input_name = some input ∧ op.scope op.filter_name = some filter ∧
      (created graph (ConvTransposeConverter graph op kernel).graph).filter
          (fun node => node.data.isAdd) = [{ name := op.output_name, data := .Add d n }] ∧
      ((graph.Has b = false ∧ b ≠ op.input_name ∧ b ≠ op.filter_name ∧ b ≠ op.output_name ∧
          b ≠ op.output_name ++ "/input_sizes") →
        ∃ bias, op.scope b = some bias ∧
          toInt64 (production bias.dims) = toInt64 (idx filter.dims 1 * op.groups) ∧
          (fitsInt64 (production bias.dims) → fitsInt64 (idx filter.dims 1 * op.groups) →
            production bias.dims = idx filter.dims 1 * op.groups ∧
            toInt64 (production bias.dims) = production bias.dims) ∧
          graph.nodes.length ≤ n ∧
          (ConvTransposeConverter graph op kernel).graph.nodes[n]? =
            some { name := b,
                   data := .tensor bias [1, toInt64 (production bias.dims), 1, 1] } ∧
          (created graph (ConvTransposeConverter graph op kernel).graph).filter
              (fun node => node.data.isTensor) =
            (if graph.Has op.input_name then []
              else [{ name := op.input_name, data := .tensor input input.dims }]) ++
            [{ name := op.filter_name, data := .tensor filter filter.dims },
             { name := b,
               data := .tensor bias [1, toInt64 (production bias.dims), 1, 1] }]) ∧
      (¬(graph.Has b = false ∧ b ≠ op.input_name ∧ b ≠ op.filter_name ∧ b ≠ op.output_name ∧
          b ≠ op.output_name ++ "/input_sizes") →
        (created graph (ConvTransposeConverter graph op kernel).graph).filter
            (fun node => node.data.isTensor) =
          (if graph.Has op.input_name then []
            else [{ name := op.input_name, data := .tensor input input.dims }]) ++
          [{ name := op.filter_name, data := .tensor filter filter.dims }] ∧
        (b ≠ op.output_name →
          (ConvTransposeConverter graph op kernel).graph.Get b = some n) ∧
        (∀ m, graph.Get b = some m → b ≠ op.filter_name → b ≠ op.output_name →
          b ≠ op.output_name ++ "/input_sizes" → n = m)) := by
  obtain ⟨input, filter, paddings, pre, mid, x, hv, hnp, hpre, hmid, hnodes, -⟩ :=
    converter_nodes hs
  have hcr : created graph (ConvTransposeConverter graph op kernel).graph =
      pre ++
        ([{ name := op.output_name ++ "/input_sizes",
             data := .constInt
              (input_sizes input.dims filter.dims op.strides op.dilations paddings op.groups) },
           { name := op.filter_name, data := .tensor filter filter.dims },
           { name := op.output_name,
             data := .Deconvolution (deconvolution op filter.dims paddings
              (graph.nodes.length + pre.length) (graph.nodes.length + pre.length + 1) x) }] ++
          (mid ++
          (if op.fuse_relu = some true then
            [{ name := op.output_name,
               data := .Activation (graph.nodes.length + pre.length + 2 + mid.length) "relu" }]
           else []))) := by
    simp only [created, hnodes, List.append_assoc, List.drop_left]
  have hfa : pre.filter (fun node => node.data.isAdd) = [] := by
    rcases hpre with ⟨-, rfl⟩ | ⟨-, -, rfl⟩ <;> simp [NodeData.isAdd]
  have hft : pre.filter (fun node => node.data.isTensor) =
      (if graph.Has op.input_name then []
        else [{ name := op.input_name, data := .tensor input input.dims }]) := by
    rcases hpre with ⟨hg, rfl⟩ | ⟨hg, -, rfl⟩ <;> simp [NodeData.isTensor, Graph.Has, hg]
  have hx : (inputNode graph op.input_name input).2 = x := by
    rcases hpre with ⟨hg, -⟩ | ⟨hg, hx, -⟩
    · exact inputNode_snd_of_Get input hg
    · simp [inputNode, hg, hx]
  rcases hmid with ⟨hn, -⟩ | ⟨b1, n, hb1, hget, rfl, hfin⟩ |
    ⟨b1, bias, hb1, hget, -, -, hsc, hprod, rfl, hfin⟩
  · rw [hn] at hb; cases hb
  · rw [hb] at hb1
    cases hb1
    refine ⟨input, filter, graph.nodes.length + pre.length + 2, n, hv.2.2.1,
      hv.2.2.2.2.2.2.1, ?_, ?_, ?_⟩
    · rw [hcr, List.filter_append, hfa]
      by_cases hr : op.fuse_relu = some true <;> simp [hr, NodeData.isAdd]
    · rintro ⟨h0, h1, h2, h3, h4⟩
      have := (stage_Get_none_iff graph op input filter x paddings b).2
        ⟨(Has_eq_false_iff graph b).1 h0, h1, h2, h3, h4⟩
      rw [this] at hget
      cases hget
    · intro _
      refine ⟨?_, hfin, ?_⟩
      · rw [hcr, List.filter_append, hft]
        by_cases hr : op.fuse_relu = some true <;> simp [hr, NodeData.isTensor]
      · intro m hm h2 h3 h4
        rw [deconvStage_Get, if_neg h3, if_neg h2, if_neg h4, inputNode_Get] at hget
        by_cases hbi : b = op.input_name
        · rw [if_pos hbi, hx] at hget
          rcases hpre with ⟨hg, -⟩ | ⟨hg, -, -⟩
          · rw [← hbi, hm] at hg
            exact (Option.some.inj hget).symm.trans (Option.some.inj hg).symm
          · rw [← hbi, hm] at hg
            cases hg
        · rw [if_neg hbi, hm] at hget
          exact (Option.some.inj hget).symm
  · rw [hb] at hb1
    cases hb1
    have hun := (stage_Get_none_iff graph op input filter x paddings b).1 hget
    refine ⟨input, filter, graph.nodes.length + pre.length + 2,
      graph.nodes.length + pre.length + 3, hv.2.2.1, hv.2.2.2.2.2.2.1, ?_, ?_, ?_⟩
    · rw [hcr, List.filter_append, hfa]
      by_cases hr : op.fuse_relu = some true <;> simp [hr, NodeData.isAdd]
    · intro _
      refine ⟨bias, hsc, hprod, ?_, by omega, ?_, ?_⟩
      · intro f1 f2
        rw [toInt64_of_fits f1, toInt64_of_fits f2] at hprod
        exact ⟨hprod, toInt64_of_fits f1⟩
      · rw [hnodes]
        simp only [List.append_assoc]
        rw [← List.append_assoc, getElem?_shift _ _ _ _ 3 (by simp)]
        simp
      · rw [hcr, List.filter_append, hft]
        by_cases hr : op.fuse_relu = some true <;> simp [hr, NodeData.isTensor]
    · intro hnot
      exact absurd ⟨(Has_eq_false_iff graph b).2 hun.1, hun.2⟩ hnot

/-- Witness of C12: the sample operator with the 8-element bias `b` on the
empty registry; the bias node is created at position 4 with shape
`[1, 8, 1, 1]` and is the second operand of the add node. -/
theorem bias_node_resolution_witness :
    (ConvTransposeConverter emptyGraph fusedOp floatKernel).graph.nodes[4]? =
      some { name := "b", data := .tensor { dims := [8] } [1, 8, 1, 1] } ∧
    (created emptyGraph (ConvTransposeConverter emptyGraph fusedOp floatKernel).graph).filter
        (fun node => node.data.isAdd) = [{ name := "y", data := .Add 3 4 }] ∧
    (∃ (input filter : Tensor) (d n : Nat),
      fusedOp.scope fusedOp.input_name = some input ∧ fusedOp.scope fusedOp.filter_name = some filter ∧
      (created emptyGraph (ConvTransposeConverter emptyGraph fusedOp floatKernel).graph).filter
          (fun node => node.data.isAdd) = [{ name := fusedOp.output_name, data := .Add d n }] ∧
      ((emptyGraph.Has "b" = false ∧ "b" ≠ fusedOp.input_name ∧ "b" ≠ fusedOp.filter_name ∧ "b" ≠ fusedOp.output_name ∧
          "b" ≠ fusedOp.output_name ++ "/input_sizes") →
        ∃ bias, fusedOp.scope "b" = some bias ∧
          toInt64 (production bias.dims) = toInt64 (idx filter.dims 1 * fusedOp.groups) ∧
          (fitsInt64 (production bias.dims) → fitsInt64 (idx filter.dims 1 * fusedOp.groups) →
            production bias.dims = idx filter.dims 1 * fusedOp.groups ∧
            toInt64 (production bias.dims) = production bias.dims) ∧
          emptyGraph.nodes.length ≤ n ∧
          (ConvTransposeConverter emptyGraph fusedOp floatKernel).graph.nodes[n]? =
            some { name := "b",
                   data := .tensor bias [1, toInt64 (production bias.dims), 1, 1] } ∧
          (created emptyGraph (ConvTransposeConverter emptyGraph fusedOp floatKernel).graph).filter
              (fun node => node.data.isTensor) =
            (if emptyGraph.Has fusedOp.input_name then []
              else [{ name := fusedOp.input_name, data := .tensor input input.dims }]) ++
            [{ name := fusedOp.filter_name, data := .tensor filter filter.dims },
             { name := "b",
               data := .tensor bias [1, toInt64 (production bias.dims), 1, 1] }]) ∧
      (¬(emptyGraph.Has "b" = false ∧ "b" ≠ fusedOp.input_name ∧ "b" ≠ fusedOp.filter_name ∧ "b" ≠ fusedOp.output_name ∧
          "b" ≠ fusedOp.output_name ++ "/input_sizes") →
        (created emptyGraph (ConvTransposeConverter emptyGraph fusedOp floatKernel).graph).filter
            (fun node => node.data.isTensor) =
          (if emptyGraph.Has fusedOp.input_name then []
            else [{ name := fusedOp.input_name, data := .tensor input input.dims }]) ++
          [{ name := fusedOp.filter_name, data := .tensor filter filter.dims }] ∧
        ("b" ≠ fusedOp.output_name →
          (ConvTransposeConverter emptyGraph fusedOp floatKernel).graph.Get "b" = some n) ∧
        (∀ m, emptyGraph.Get "b" = some m → "b" ≠ fusedOp.filter_name → "b" ≠ fusedOp.output_name →
          "b" ≠ fusedOp.output_name ++ "/input_sizes" → n = m))) :=
  ⟨by decide, by decide,
   bias_node_resolution emptyGraph fusedOp floatKernel "b" (by decide) rfl⟩

/-! Failing calls -/

/-- C13: a failing call does not undo what it registered. When the checks of
lines 34-59 pass and `paddings` has neither 2 nor 4 elements, the call fails at
the padding check and, if the input name was not registered, leaves the newly
created input node registered under it. When these checks and the padding
check pass and the bias element count check fails (the bias name is not
registered when the branch is reached, the bias is declared float,
channel-first, and its element count and `filter_dims[1] * groups` differ as
the `int64_t` values line 123 compares), the call leaves the input name
registered and the descriptor, filter and deconvolution nodes it created in
the registry. -/
theorem no_cleanup_on_failure (graph : Graph) (op : OpLite) (kernel : KernelBase)
    (input filter : Tensor) (hv : inputsValid op kernel input filter) :
    (op.paddings.length ≠ 2 → op.paddings.length ≠ 4 → graph.Has op.input_name = false →
      (ConvTransposeConverter graph op kernel).status = .error .paddings_size ∧
      created graph (ConvTransposeConverter graph op kernel).graph =
        [{ name := op.input_name, data := .tensor input input.dims }] ∧
      (ConvTransposeConverter graph op kernel).graph.Get op.input_name =
        some graph.nodes.length ∧
      (ConvTransposeConverter graph op kernel).graph.nodes[graph.nodes.length]? =
        some { name := op.input_name, data := .tensor input input.dims }) ∧
    (∀ (b : String) (bias : Tensor) (paddings : List Int),
      normalizePaddings op.paddings = some paddings → op.bias_name = some b →
      graph.Has b = false → b ≠ op.input_name → b ≠ op.filter_name → b ≠ op.output_name →
      b ≠ op.output_name ++ "/input_sizes" →
      kernel.GetInputDeclType "Bias" = { precision := .kFloat, layout := .kNCHW } →
      op.scope b = some bias →
      toInt64 (production bias.dims) ≠ toInt64 (idx filter.dims 1 * op.groups) →
      ∃ (base x : Nat),
        base = graph.nodes.length + (if graph.Has op.input_name then 0 else 1) ∧
        (ConvTransposeConverter graph op kernel).status = .error .bias_channel_size ∧
        created graph (ConvTransposeConverter graph op kernel).graph =
          (if graph.Has op.input_name then []
            else [{ name := op.input_name, data := .tensor input input.dims }]) ++
          [{ name := op.output_name ++ "/input_sizes",
             data := .constInt (input_sizes input.dims filter.dims op.strides op.dilations
              paddings op.groups) },
           { name := op.filter_name, data := .tensor filter filter.dims },
           { name := op.output_name,
             data := .Deconvolution
              (deconvolution op filter.dims paddings base (base + 1) x) }] ∧
        (ConvTransposeConverter graph op kernel).graph.Has op.input_name = true ∧
        (graph.Get op.input_name = some x ∨
          (graph.Get op.input_name = none ∧ x = graph.nodes.length)) ∧
        (op.input_name ≠ op.filter_name → op.input_name ≠ op.output_name →
          op.input_name ≠ op.output_name ++ "/input_sizes" →
          (ConvTransposeConverter graph op kernel).graph.Get op.input_name = some x) ∧
        (ConvTransposeConverter graph op kernel).graph.Get op.output_name = some (base + 2) ∧
        (op.filter_name ≠ op.output_name →
          (ConvTransposeConverter graph op kernel).graph.Get op.filter_name =
            some (base + 1)) ∧
        (op.filter_name ≠ op.output_name ++ "/input_sizes" →
          (ConvTransposeConverter graph op kernel).graph.Get (op.output_name ++ "/input_sizes") =
            some base)) := by
  constructor
  · intro h2 h4 hreg
    have hg := (Has_eq_false_iff graph op.input_name).1 hreg
    rw [converter_eq_of_paddings_none hv (normalizePaddings_other h2 h4)]
    have hin : (inputNode graph op.input_name input).1 =
        (graph.Add op.input_name (.tensor input input.dims)).1 := by
      simp [inputNode, hg]
    simp only [hin]
    refine ⟨trivial, by simp [created], by simp [Get_Add], by simp⟩
  · intro b bias paddings hnp hb hreg h1 h2 h3 h4 ht hsc hm
    have hg := (Has_eq_false_iff graph b).1 hreg
    have hstage := (stage_Get_none_iff graph op input filter
      (inputNode graph op.input_name input).2 paddings b).2 ⟨hg, h1, h2, h3, h4⟩
    rw [converter_eq_of_bias_error hv hnp hb (biasNode_channel_mismatch hstage ht hsc hm)]
    simp only []
    have hlen : (inputNode graph op.input_name input).1.nodes.length =
        graph.nodes.length + (if graph.Has op.input_name then 0 else 1) := by
      rcases inputNode_cases graph op.input_name input with ⟨hg1, e1⟩ | ⟨hg1, -, e1⟩ <;>
        rw [e1] <;> simp [Graph.Has, hg1]
    refine ⟨_, (inputNode graph op.input_name input).2, rfl, trivial, ?_,
      deconvStage_Has_mono _ _ _ _ _ (inputNode_Has_self _ _ _), ?_, ?_, ?_, ?_, ?_⟩
    · simp only [created, deconvStage_nodes, hlen]
      rcases inputNode_cases graph op.input_name input with ⟨hg1, e1⟩ | ⟨hg1, -, e1⟩ <;>
        rw [e1] <;> simp [Graph.Has, hg1]
    · rcases inputNode_cases graph op.input_name input with ⟨hg1, -⟩ | ⟨hg1, hx, -⟩
      · exact Or.inl hg1
      · exact Or.inr ⟨hg1, hx⟩
    · intro n1 n2 n3
      rw [deconvStage_Get, if_neg n2, if_neg n1, if_neg n3, inputNode_Get, if_pos rfl]
    · rw [deconvStage_Get, if_pos rfl, hlen]
    · intro hne
      rw [deconvStage_Get, if_neg hne, if_pos rfl, hlen]
    · intro hne
      rw [deconvStage_Get, if_neg (append_ne_self _), if_neg (Ne.symm hne), if_pos rfl, hlen]

/-- Witness of C13: the sample operator with paddings `[1, 2, 3]`, and the
sample operator with the 3-element bias `c`, both on the empty registry. -/
theorem no_cleanup_on_failure_witness :
    ((ConvTransposeConverter emptyGraph badPaddingOp floatKernel).status =
        .error .paddings_size ∧
      created emptyGraph (ConvTransposeConverter emptyGraph badPaddingOp floatKernel).graph =
        [{ name := "x", data := .tensor { dims := [1, 4, 8, 8] } [1, 4, 8, 8] }] ∧
      (ConvTransposeConverter emptyGraph badPaddingOp floatKernel).graph.Get "x" = some 0 ∧
      (ConvTransposeConverter emptyGraph badPaddingOp floatKernel).graph.nodes[0]? =
        some { name := "x", data := .tensor { dims := [1, 4, 8, 8] } [1, 4, 8, 8] }) ∧
    (created emptyGraph (ConvTransposeConverter emptyGraph mismatchOp floatKernel).graph).length
      = 4 ∧
    (
∃ (base x : Nat),
        base = emptyGraph.nodes.length + (if emptyGraph.Has mismatchOp.input_name then 0 else 1) ∧
        (ConvTransposeConverter emptyGraph mismatchOp floatKernel).status = .error .bias_channel_size ∧
        created emptyGraph (ConvTransposeConverter emptyGraph mismatchOp floatKernel).graph =
          (if emptyGraph.Has mismatchOp.input_name then []
            else [{ name := mismatchOp.input_name, data := .tensor { dims := [1, 4, 8, 8] } [1, 4, 8, 8] }]) ++
          [{ name := mismatchOp.output_name ++ "/input_sizes",
             data := .constInt (input_sizes [1, 4, 8, 8] [4, 8, 3, 3] mismatchOp.strides mismatchOp.dilations
              [1, 1, 1, 1] mismatchOp.groups) },
           { name := mismatchOp.filter_name, data := .tensor { dims := [4, 8, 3, 3] } [4, 8, 3, 3] },
           { name := mismatchOp.output_name,
             data := .Deconvolution
              (deconvolution mismatchOp [4, 8, 3, 3] [1, 1, 1, 1] base (base + 1) x) }] ∧
        (ConvTransposeConverter emptyGraph mismatchOp floatKernel).graph.Has mismatchOp.input_name = true ∧
        (emptyGraph.Get mismatchOp.input_name = some x ∨
          (emptyGraph.Get mismatchOp.input_name = none ∧ x = emptyGraph.nodes.length)) ∧
        (mismatchOp.input_name ≠ mismatchOp.filter_name → mismatchOp.input_name ≠ mismatchOp.output_name →
          mismatchOp.input_name ≠ mismatchOp.output_name ++ "/input_sizes" →
          (ConvTransposeConverter emptyGraph mismatchOp floatKernel).graph.Get mismatchOp.input_name = some x) ∧
        (ConvTransposeConverter emptyGraph mismatchOp floatKernel).graph.Get mismatchOp.output_name = some (base + 2) ∧
        (mismatchOp.filter_name ≠ mismatchOp.output_name →
          (ConvTransposeConverter emptyGraph mismatchOp floatKernel).graph.Get mismatchOp.filter_name =
            some (base + 1)) ∧
        (mismatchOp.filter_name ≠ mismatchOp.output_name ++ "/input_sizes" →
          (ConvTransposeConverter emptyGraph mismatchOp floatKernel).graph.Get (mismatchOp.output_name ++ "/input_sizes") =
            some base)) :=
  ⟨(no_cleanup_on_failure emptyGraph badPaddingOp floatKernel
      { dims := [1, 4, 8, 8] } { dims := [4, 8, 3, 3] }
      ⟨rfl, rfl, rfl, rfl, rfl, rfl, rfl, rfl, rfl, rfl, rfl, rfl⟩).1
      (by decide) (by decide) (by decide),
   by decide,
   (no_cleanup_on_failure emptyGraph mismatchOp floatKernel
      { dims := [1, 4, 8, 8] } { dims := [4, 8, 3, 3] }
      ⟨rfl, rfl, rfl, rfl, rfl, rfl, rfl, rfl, rfl, rfl, rfl, rfl⟩).2
      "c" { dims := [3] } [1, 1, 1, 1] rfl rfl (by decide) (by decide) (by decide)
      (by decide) (by decide) rfl rfl (by decide)⟩

/-! The padding entry read by the size loop -/

/-- C14: the output-size loop reads the normalised padding at the axis number.
In a successful conversion with `paddings = [p0, p1]` both spatial entries of
the descriptor subtract `2 * p0`, and with `paddings = [a, b, c, d]` the height
entry subtracts `2 * a` and the width entry `2 * b`; the vector computed by
lines 78-86 does not change when `p1`, or `c` and `d`, change. -/
theorem width_reads_padding_at_axis_number (graph : Graph) (op : OpLite)
    (kernel : KernelBase) (input filter : Tensor)
    (hs : (ConvTransposeConverter graph op kernel).succeeded = true)
    (hin : op.scope op.input_name = some input)
    (hf : op.scope op.filter_name = some filter) :
    (∀ p0 p1 : Int, op.paddings = [p0, p1] →
      (created graph (ConvTransposeConverter graph op kernel).graph).filter
          (fun n => n.data.isConstInt) =
        [{ name := op.output_name ++ "/input_sizes",
           data := .constInt
            [toInt32 (idx input.dims 0), toInt32 (idx filter.dims 1 * op.groups),
             toInt32 ((idx input.dims 2 - 1) * idx op.strides 0
               + idx op.dilations 0 * (idx filter.dims 2 - 1) + 1 - 2 * p0),
             toInt32 ((idx input.dims 3 - 1) * idx op.strides 1
               + idx op.dilations 1 * (idx filter.dims 3 - 1) + 1 - 2 * p0)] }] ∧
      ∀ q1 : Int,
        input_sizes input.dims filter.dims op.strides op.dilations [p0, p0, q1, q1] op.groups =
        input_sizes input.dims filter.dims op.strides op.dilations [p0, p0, p1, p1]
          op.groups) ∧
    (∀ a b c d : Int, op.paddings = [a, b, c, d] →
      (created graph (ConvTransposeConverter graph op kernel).graph).filter
          (fun n => n.data.isConstInt) =
        [{ name := op.output_name ++ "/input_sizes",
           data := .constInt
            [toInt32 (idx input.dims 0), toInt32 (idx filter.dims 1 * op.groups),
             toInt32 ((idx input.dims 2 - 1) * idx op.strides 0
               + idx op.dilations 0 * (idx filter.dims 2 - 1) + 1 - 2 * a),
             toInt32 ((idx input.dims 3 - 1) * idx op.strides 1
               + idx op.dilations 1 * (idx filter.dims 3 - 1) + 1 - 2 * b)] }] ∧
      ∀ c1 d1 : Int,
        input_sizes input.dims filter.dims op.strides op.dilations [a, b, c1, d1] op.groups =
        input_sizes input.dims filter.dims op.strides op.dilations [a, b, c, d] op.groups) := by
  obtain ⟨paddings, hnp, hcr⟩ := created_constInt hs hin hf
  obtain ⟨_, _, _, ⟨-, -, -, -, -, -, -, -, -, -, hst, -⟩, -, -⟩ := converter_run hs
  constructor
  · intro p0 p1 hp
    rw [hp, normalizePaddings_pair] at hnp
    have e := (Option.some.inj hnp).symm
    subst e
    refine ⟨?_, ?_⟩
    · rw [hcr, output_size_eq, output_size_eq]
      rfl
    · intro q1
      rw [input_sizes_eq _ _ _ _ _ _ hst, input_sizes_eq _ _ _ _ _ _ hst]
      rfl
  · intro a b c d hp
    rw [hp, @normalizePaddings_quad [a, b, c, d] rfl] at hnp
    have e := (Option.some.inj hnp).symm
    subst e
    refine ⟨?_, ?_⟩
    · rw [hcr, output_size_eq, output_size_eq]
      rfl
    · intro c1 d1
      rw [input_sizes_eq _ _ _ _ _ _ hst, input_sizes_eq _ _ _ _ _ _ hst]
      rfl

/-- Witness of C14: paddings `[1, 2]` give the descriptor `[1, 8, 15, 15]` and
paddings `[1, 0, 1, 0]` give `[1, 8, 15, 17]`. -/
theorem width_reads_padding_at_axis_number_witness :
    (created emptyGraph (ConvTransposeConverter emptyGraph pairPaddingOp floatKernel).graph).filter
        (fun n => n.data.isConstInt) =
      [{ name := "y/input_sizes", data := .constInt [1, 8, 15, 15] }] ∧
    (created emptyGraph (ConvTransposeConverter emptyGraph paddedOp floatKernel).graph).filter
        (fun n => n.data.isConstInt) =
      [{ name := "y/input_sizes", data := .constInt [1, 8, 15, 17] }] :=
  ⟨((width_reads_padding_at_axis_number emptyGraph pairPaddingOp floatKernel
      { dims := [1, 4, 8, 8] } { dims := [4, 8, 3, 3] } (by decide) rfl rfl).1 1 2 rfl).1,
   ((width_reads_padding_at_axis_number emptyGraph paddedOp floatKernel
      { dims := [1, 4, 8, 8] } { dims := [4, 8, 3, 3] } (by decide) rfl rfl).2 1 0 1 0 rfl).1⟩

/-! Failures before the first registry change -/

/-- C15: when the declared type of `Input`, `Filter` or `Output` is not float,
channel-first, or the input or the filter shape does not have 4 dimensions, or
`strides` or `dilations` does not have 2 elements, the conversion fails and
the registry after the call is the registry before the call. -/
theorem early_validation_atomic (graph : Graph) (op : OpLite) (kernel : KernelBase)
    (h : (∀ input, op.scope op.input_name = some input → input.dims.length ≠ 4) ∨
         (∀ filter, op.scope op.filter_name = some filter → filter.dims.length ≠ 4) ∨
         op.strides.length ≠ 2 ∨ op.dilations.length ≠ 2 ∨
         kernel.GetInputDeclType "Input" ≠ { precision := .kFloat, layout := .kNCHW } ∨
         kernel.GetInputDeclType "Filter" ≠ { precision := .kFloat, layout := .kNCHW } ∨
         kernel.GetOutputDeclType "Output" ≠ { precision := .kFloat, layout := .kNCHW }) :
    (ConvTransposeConverter graph op kernel).failed = true ∧
    (ConvTransposeConverter graph op kernel).graph = graph := by
  have hno : ∀ input filter, ¬ inputsValid op kernel input filter := by
    rintro input filter ⟨v1, v2, v3, v4, v5, v6, v7, v8, v9, v10, v11, v12⟩
    rcases h with h | h | h | h | h | h | h
    · exact h input v3 v4
    · exact h filter v7 v8
    · exact h v11
    · exact h v12
    · exact h (declType_eq v1 v2)
    · exact h (declType_eq v5 v6)
    · exact h (declType_eq v9 v10)
  rcases converter_outcome graph op kernel with ⟨e, -, he⟩ | ⟨input, filter, hv, -⟩
  · rw [he]
    exact ⟨rfl, rfl⟩
  · exact absurd hv (hno input filter)

/-- Witness of C15: an input of rank 3, a `strides` attribute of 3 elements and
a filter declared as 8-bit integers leave the registry `biasGraph` as it
was. -/
theorem early_validation_atomic_witness :
    (ConvTransposeConverter biasGraph rank3Op floatKernel).graph = biasGraph ∧
    (ConvTransposeConverter biasGraph { sampleOp with strides := [2, 2, 2] }
      floatKernel).graph = biasGraph ∧
    (ConvTransposeConverter biasGraph sampleOp int8FilterKernel).graph = biasGraph :=
  ⟨(early_validation_atomic biasGraph rank3Op floatKernel
      (Or.inl (by
        intro input hin
        have e : input = { dims := [4, 8, 8] } := (Option.some.inj hin).symm
        subst e
        decide))).2,
   (early_validation_atomic biasGraph { sampleOp with strides := [2, 2, 2] } floatKernel
      (Or.inr (Or.inr (Or.inl (by decide))))).2,
   (early_validation_atomic biasGraph sampleOp int8FilterKernel
      (Or.inr (Or.inr (Or.inr (Or.inr (Or.inr (Or.inl (by decide)))))))).2⟩

/-! Non-positive output sizes -/

/-- C16: with a 1x1 input, a 1x1 kernel, stride `[1,1]`, dilation `[1,1]` and
padding `[1,1]` the conversion succeeds and the descriptor is `[1, 1, -1, -1]`.
In general the conversion succeeds whenever the checks on declared types,
ranks, attribute lengths and the bias pass; the spatial entries it then stores
are the values of the size formula, whatever their sign. -/
theorem no_positivity_guard :
    ((ConvTransposeConverter emptyGraph tinyOp floatKernel).status =
        .ok .REBUILD_WHEN_SHAPE_CHANGED ∧
      (created emptyGraph (ConvTransposeConverter emptyGraph tinyOp floatKernel).graph).filter
          (fun n => n.data.isConstInt) =
        [{ name := "y/input_sizes", data := .constInt [1, 1, -1, -1] }]) ∧
    ∀ (graph : Graph) (op : OpLite) (kernel : KernelBase) (input filter : Tensor),
      inputsValid op kernel input filter →
      (op.paddings.length = 2 ∨ op.paddings.length = 4) →
      (∀ b, op.bias_name = some b →
        kernel.GetInputDeclType "Bias" = { precision := .kFloat, layout := .kNCHW } ∧
        ∃ bias, op.scope b = some bias ∧
          production bias.dims = idx filter.dims 1 * op.groups) →
      (ConvTransposeConverter graph op kernel).succeeded = true ∧
      ∃ paddings, normalizePaddings op.paddings = some paddings ∧
        (created graph (ConvTransposeConverter graph op kernel).graph).filter
            (fun n => n.data.isConstInt) =
          [{ name := op.output_name ++ "/input_sizes",
             data := .constInt
              [toInt32 (idx input.dims 0), toInt32 (idx filter.dims 1 * op.groups),
               output_size input.dims filter.dims op.strides op.dilations paddings 0,
               output_size input.dims filter.dims op.strides op.dilations paddings 1] }] := by
  refine ⟨⟨rfl, by decide⟩, ?_⟩
  intro graph op kernel input filter hv hp hb
  have hs := succeeded_of_status (converter_status_of_valid graph op kernel input filter hv hp hb)
  exact ⟨hs, created_constInt hs hv.2.2.1 hv.2.2.2.2.2.2.1⟩

/-- Witness of C16: the general part applied to the 1x1 operator. -/
theorem no_positivity_guard_witness :
    (ConvTransposeConverter emptyGraph tinyOp floatKernel).succeeded = true ∧
    ∃ paddings, normalizePaddings tinyOp.paddings = some paddings ∧
      (created emptyGraph (ConvTransposeConverter emptyGraph tinyOp floatKernel).graph).filter
          (fun n => n.data.isConstInt) =
        [{ name := tinyOp.output_name ++ "/input_sizes",
           data := .constInt
            [toInt32 (idx [1, 1, 1, 1] 0), toInt32 (idx [1, 1, 1, 1] 1 * tinyOp.groups),
             output_size [1, 1, 1, 1] [1, 1, 1, 1] tinyOp.strides tinyOp.dilations paddings 0,
             output_size [1, 1, 1, 1] [1, 1, 1, 1] tinyOp.strides tinyOp.dilations
              paddings 1] }] :=
  no_positivity_guard.2 emptyGraph tinyOp floatKernel { dims := [1, 1, 1, 1] }
    { dims := [1, 1, 1, 1] } ⟨rfl, rfl, rfl, rfl, rfl, rfl, rfl, rfl, rfl, rfl, rfl, rfl⟩
    (Or.inl rfl) (by intro b hb; cases hb)

end ConvTranspose
